import Mathlib

/-!
Verification of the cloth simulation engine of this repository.

The repository contains two physics implementations:
* src/cloth.js — class-based Verlet cloth (Particle, Constraint, Cloth) with
  over-stretch tearing, pre-start constraint-point selection (togglePin),
  pre-sag shaping and a startSimulation gate.
* src/main.js — ClothPhysics with duck-typed particle records, pivot
  anchoring (attachToPivots), a relaxation solver with damage-scaled tearing
  (satisfyConstraints), and two cutting primitives (cutOrganic,
  cutAlongSegment).

JavaScript numbers are modelled as real numbers; THREE.Vector3 becomes a
three-component real vector.  Particles are kept in a list and constraints
refer to their endpoints by list index, which models JavaScript object
identity.  Math.random() draws are modelled by an explicit stream of real
values passed as a parameter.
-/

open scoped Classical

noncomputable section

namespace ClothSim

/-- Three-component real vector mirroring THREE.Vector3 as the cloth code uses it. -/
@[ext]
structure Vec3 where
  x : ℝ
  y : ℝ
  z : ℝ

instance : Zero Vec3 := ⟨⟨0, 0, 0⟩⟩

instance : Add Vec3 := ⟨fun a b => ⟨a.x + b.x, a.y + b.y, a.z + b.z⟩⟩

instance : Sub Vec3 := ⟨fun a b => ⟨a.x - b.x, a.y - b.y, a.z - b.z⟩⟩

instance : SMul ℝ Vec3 := ⟨fun t v => ⟨t * v.x, t * v.y, t * v.z⟩⟩

@[simp] theorem Vec3.zero_x : (0 : Vec3).x = 0 := rfl

@[simp] theorem Vec3.zero_y : (0 : Vec3).y = 0 := rfl

@[simp] theorem Vec3.zero_z : (0 : Vec3).z = 0 := rfl

@[simp] theorem Vec3.add_x (a b : Vec3) : (a + b).x = a.x + b.x := rfl

@[simp] theorem Vec3.add_y (a b : Vec3) : (a + b).y = a.y + b.y := rfl

@[simp] theorem Vec3.add_z (a b : Vec3) : (a + b).z = a.z + b.z := rfl

@[simp] theorem Vec3.sub_x (a b : Vec3) : (a - b).x = a.x - b.x := rfl

@[simp] theorem Vec3.sub_y (a b : Vec3) : (a - b).y = a.y - b.y := rfl

@[simp] theorem Vec3.sub_z (a b : Vec3) : (a - b).z = a.z - b.z := rfl

@[simp] theorem Vec3.smul_x (t : ℝ) (v : Vec3) : (t • v).x = t * v.x := rfl

@[simp] theorem Vec3.smul_y (t : ℝ) (v : Vec3) : (t • v).y = t * v.y := rfl

@[simp] theorem Vec3.smul_z (t : ℝ) (v : Vec3) : (t • v).z = t * v.z := rfl

@[simp] theorem Vec3.mk_x (a b c : ℝ) : (Vec3.mk a b c).x = a := rfl

@[simp] theorem Vec3.mk_y (a b c : ℝ) : (Vec3.mk a b c).y = b := rfl

@[simp] theorem Vec3.mk_z (a b c : ℝ) : (Vec3.mk a b c).z = c := rfl

@[simp] theorem Vec3.add_zero (v : Vec3) : v + 0 = v := by ext <;> simp

@[simp] theorem Vec3.zero_smul (v : Vec3) : (0 : ℝ) • v = 0 := by ext <;> simp

@[simp] theorem Vec3.smul_zero (t : ℝ) : t • (0 : Vec3) = 0 := by ext <;> simp

/-- Squared length, mirroring THREE.Vector3.lengthSq. -/
def Vec3.lengthSq (v : Vec3) : ℝ := v.x * v.x + v.y * v.y + v.z * v.z

/-- Euclidean length, mirroring THREE.Vector3.length. -/
def Vec3.length (v : Vec3) : ℝ := Real.sqrt v.lengthSq

/-- Dot product, mirroring THREE.Vector3.dot. -/
def Vec3.dot (a b : Vec3) : ℝ := a.x * b.x + a.y * b.y + a.z * b.z

/-- Distance a.distanceTo(b) of THREE.Vector3. -/
def Vec3.distanceTo (a b : Vec3) : ℝ := (a - b).length

/-- Normalization, mirroring THREE.Vector3.normalize, which divides by
the length or by 1 when the length is zero (divideScalar(length || 1)). -/
def Vec3.normalize (v : Vec3) : Vec3 :=
  if v.length = 0 then v else (1 / v.length) • v

@[simp] theorem Vec3.sub_zero (v : Vec3) : v - 0 = v := by ext <;> simp

@[simp] theorem Vec3.sub_self (v : Vec3) : v - v = 0 := by ext <;> simp

@[simp] theorem Vec3.length_zero : (0 : Vec3).length = 0 := by
  simp [Vec3.length, Vec3.lengthSq]

theorem Vec3.length_nonneg (v : Vec3) : 0 ≤ v.length := Real.sqrt_nonneg _

theorem Vec3.lengthSq_nonneg (v : Vec3) : 0 ≤ v.lengthSq := by
  have hx := mul_self_nonneg v.x
  have hy := mul_self_nonneg v.y
  have hz := mul_self_nonneg v.z
  unfold Vec3.lengthSq; linarith

theorem Vec3.eq_zero_of_length_eq_zero {v : Vec3} (h : v.length = 0) : v = 0 := by
  have hs : v.lengthSq = 0 :=
    (Real.sqrt_eq_zero v.lengthSq_nonneg).mp h
  have hx := mul_self_nonneg v.x
  have hy := mul_self_nonneg v.y
  have hz := mul_self_nonneg v.z
  unfold Vec3.lengthSq at hs
  have hx0 : v.x = 0 := by nlinarith
  have hy0 : v.y = 0 := by nlinarith
  have hz0 : v.z = 0 := by nlinarith
  ext <;> simp [hx0, hy0, hz0]

/-- Evaluation helper for concrete square roots. -/
theorem sqrt_eval {x s : ℝ} (h0 : 0 ≤ s) (h : s * s = x) : Real.sqrt x = s := by
  subst h; exact Real.sqrt_mul_self h0

/-! List helper lemmas (self-contained, proved by induction so we do not
depend on library lemma names for get?/set/map interaction). -/

theorem list_get?_set_self {α : Type} :
    ∀ (l : List α) (i : ℕ) (a : α), i < l.length → (l.set i a).get? i = some a := by
  intro l
  induction l with
  | nil => intro i a h; simp at h
  | cons b t ih =>
      intro i a h
      cases i with
      | zero => simp
      | succ j => simpa using ih j a (by simpa using h)

theorem list_get?_set_ne {α : Type} :
    ∀ (l : List α) (i j : ℕ) (a : α), i ≠ j → (l.set i a).get? j = l.get? j := by
  intro l
  induction l with
  | nil => intro i j a _; simp
  | cons b t ih =>
      intro i j a hij
      cases i with
      | zero =>
          cases j with
          | zero => exact absurd rfl hij
          | succ k => simp
      | succ i' =>
          cases j with
          | zero => simp
          | succ k => simpa using ih i' k a (fun h => hij (by simp [h]))

theorem list_map_set {α β : Type} (f : α → β) :
    ∀ (l : List α) (i : ℕ) (a : α), (l.set i a).map f = (l.map f).set i (f a) := by
  intro l
  induction l with
  | nil => intro i a; simp
  | cons b t ih =>
      intro i a
      cases i with
      | zero => simp
      | succ j => simp [ih]

theorem list_set_same {α : Type} :
    ∀ (l : List α) (i : ℕ) (a : α), l.get? i = some a → l.set i a = l := by
  intro l
  induction l with
  | nil => intro i a h; simp at h
  | cons b t ih =>
      intro i a h
      cases i with
      | zero =>
          have hb : b = a := by simpa using h
          simp [hb]
      | succ j => exact congrArg (List.cons b) (ih j a h)

theorem list_get?_map {α β : Type} (f : α → β) :
    ∀ (l : List α) (i : ℕ), (l.map f).get? i = (l.get? i).map f := by
  intro l
  induction l with
  | nil => intro i; simp
  | cons b t ih =>
      intro i
      cases i with
      | zero => simp
      | succ j => exact ih j

theorem list_mem_set {α : Type} :
    ∀ (l : List α) (i : ℕ) (a b : α), b ∈ l.set i a → b ∈ l ∨ b = a := by
  intro l
  induction l with
  | nil => intro i a b h; simp at h
  | cons c t ih =>
      intro i a b h
      cases i with
      | zero =>
          rcases (List.mem_cons).mp h with h1 | h1
          · right; exact h1
          · left; exact List.mem_cons_of_mem _ h1
      | succ j =>
          rcases (List.mem_cons).mp h with h1 | h1
          · left; simp [h1]
          · rcases ih j a b h1 with h2 | h2
            · left; exact List.mem_cons_of_mem _ h2
            · right; exact h2

theorem list_get?_some_lt {α : Type} :
    ∀ (l : List α) (i : ℕ) (a : α), l.get? i = some a → i < l.length := by
  intro l
  induction l with
  | nil => intro i a h; simp at h
  | cons b t ih =>
      intro i a h
      cases i with
      | zero => simp
      | succ j => simpa using ih j a (by simpa using h)

/-- Generic preservation of a predicate along a left fold. -/
theorem foldl_preserve {α β : Type} (P : α → Prop) (f : α → β → α)
    (h : ∀ a b, P a → P (f a b)) :
    ∀ (l : List β) (a : α), P a → P (l.foldl f a) := by
  intro l
  induction l with
  | nil => intro a ha; simpa using ha
  | cons b t ih => intro a ha; simpa using ih (f a b) (h a b ha)

/-! Embedding of src/cloth.js (namespace ClothJS). -/

namespace ClothJS

/-- Particle of src/cloth.js: Verlet state, force accumulator, pin state. -/
structure Particle where
  position : Vec3
  previous : Vec3
  acceleration : Vec3
  inverseMass : ℝ
  pinned : Bool
  pinPosition : Vec3

/-- Particle.addForce: skip when inverseMass is 0, otherwise accumulate
acceleration += force * inverseMass (addScaledVector). -/
def Particle.addForce (p : Particle) (force : Vec3) : Particle :=
  if p.inverseMass = 0 then p
  else { p with acceleration := p.acceleration + p.inverseMass • force }

/-- Particle.integrate: pinned particles snap to pinPosition with zeroed
acceleration; otherwise a damped Verlet step. -/
def Particle.integrate (p : Particle) (deltaTime damping : ℝ) : Particle :=
  if p.pinned then
    { p with position := p.pinPosition, previous := p.pinPosition,
             acceleration := (0 : Vec3) }
  else
    let temp := p.position
    let velocity := p.position - p.previous
    let dampingFactor := 1 - damping
    let dampedVelocity := dampingFactor • velocity
    { p with
        position := p.position + dampedVelocity + (deltaTime * deltaTime) • p.acceleration,
        previous := temp,
        acceleration := (0 : Vec3) }

/-- Particle.pinToCurrent. -/
def Particle.pinToCurrent (p : Particle) : Particle :=
  { p with pinned := true, pinPosition := p.position }

/-- Particle.unpin. -/
def Particle.unpin (p : Particle) : Particle :=
  { p with pinned := false }

/-- Constraint of src/cloth.js; the two particle references are modelled as
indices into the cloth's particle list. -/
structure Constraint where
  i1 : ℕ
  i2 : ℕ
  restDistance : ℝ
  stiffness : ℝ
  broken : Bool

/-- Constraint.satisfy of src/cloth.js, acting on the particle store.
The relaxation factor is 0.25 * stiffness; the correction is split in
proportion to the effective inverse masses (0 for a pinned endpoint).
Out-of-range indices cannot occur in the JavaScript (object references)
and leave the store unchanged here. -/
def satisfy (ps : List Particle) (c : Constraint) : List Particle :=
  if c.broken then ps else
  match ps.get? c.i1, ps.get? c.i2 with
  | some p1, some p2 =>
      let delta := p2.position - p1.position
      let currentDist := delta.length
      if currentDist = 0 then ps else
      let relaxation := 0.25 * c.stiffness
      let diff := (currentDist - c.restDistance) / currentDist * relaxation
      let inv1 := if p1.pinned then 0 else p1.inverseMass
      let inv2 := if p2.pinned then 0 else p2.inverseMass
      let sumInv := inv1 + inv2
      if sumInv = 0 then ps else
      let move1 := inv1 / sumInv * diff
      let move2 := inv2 / sumInv * diff
      (ps.set c.i1 { p1 with position := p1.position + move1 • delta }).set c.i2
        { p2 with position := p2.position - move2 • delta }
  | _, _ => ps

/-- State of a Cloth instance of src/cloth.js. -/
structure ClothState where
  width : ℝ
  height : ℝ
  segmentsX : ℕ
  segmentsY : ℕ
  gravity : Vec3
  damping : ℝ
  iterations : ℕ
  tearFactor : ℝ
  particles : List Particle
  constraints : List Constraint
  physicsEnabled : Bool

/-- Cloth._idx. -/
def idx (segmentsX x y : ℕ) : ℕ := y * (segmentsX + 1) + x

/-- Cloth.topRowIndices. -/
def topRowIndices (segmentsX : ℕ) : List ℕ :=
  (List.range (segmentsX + 1)).map (fun x => idx segmentsX x 0)

/-- Whether the particle at a given index is pinned (undefined indices count
as unpinned; the JavaScript never hits them). -/
def pinnedAt (cl : ClothState) (i : ℕ) : Bool :=
  ((cl.particles.get? i).map (·.pinned)).getD false

/-- One constraint visit of Cloth.step's relaxation loop: skip if broken,
tear (set broken) if the current endpoint distance exceeds
restDistance * tearFactor, otherwise satisfy. -/
def stepConstraintAt (tearFactor : ℝ) (st : ClothState) (j : ℕ) : ClothState :=
  match st.constraints.get? j with
  | none => st
  | some c =>
      if c.broken then st else
      match st.particles.get? c.i1, st.particles.get? c.i2 with
      | some p1, some p2 =>
          let currentDist := p2.position.distanceTo p1.position
          if currentDist > c.restDistance * tearFactor then
            { st with constraints := st.constraints.set j { c with broken := true } }
          else
            { st with particles := satisfy st.particles c }
      | _, _ => st

/-- One relaxation pass of Cloth.step over the given visiting order. -/
def stepPass (tearFactor : ℝ) (st : ClothState) (order : List ℕ) : ClothState :=
  order.foldl (stepConstraintAt tearFactor) st

/-- The iteration loop of Cloth.step: forward order on even iterations,
reverse order on odd iterations. -/
def stepRelax (tearFactor : ℝ) (iters : ℕ) (st : ClothState) : ClothState :=
  (List.range iters).foldl
    (fun s i =>
      if i % 2 = 1 then stepPass tearFactor s (List.range s.constraints.length).reverse
      else stepPass tearFactor s (List.range s.constraints.length))
    st

/-- Cloth.step: a no-op unless physics is enabled; otherwise apply gravity,
integrate every particle with the given (un-clamped) deltaTime, then run
the relaxation iterations with the tearing check. -/
def step (cl : ClothState) (deltaTime : ℝ) : ClothState :=
  if cl.physicsEnabled then
    let ps := cl.particles.map (fun p => p.addForce cl.gravity)
    let ps := ps.map (fun p => p.integrate deltaTime cl.damping)
    stepRelax cl.tearFactor cl.iterations { cl with particles := ps }
  else cl

/-- One pass of plain constraint satisfaction (used by relaxConstraints and
startSimulation): every non-broken constraint is satisfied once, without the
tearing check. -/
def relaxPass (st : ClothState) : ClothState :=
  { st with
    particles :=
      st.constraints.foldl (fun ps c => if c.broken then ps else satisfy ps c)
        st.particles }

/-- One inner column update of Cloth.applyPreSagOnTopRow: blend the unpinned
top-row particle at the given column toward a parabolic dip, copying the new
y to the previous position. -/
def preSagInner (top : List ℕ) (yBaseline maxSag : ℝ) (leftCol spanCols : ℕ)
    (ps : List Particle) (col : ℕ) : List Particle :=
  let t : ℝ := ((col - leftCol : ℕ) : ℝ) / (spanCols : ℝ)
  let dip := maxSag * (4 * t * (1 - t))
  let i := top.getD col 0
  match ps.get? i with
  | none => ps
  | some p =>
      if p.pinned then ps
      else
        let newY := p.position.y * 0.2 + (yBaseline - dip) * 0.8
        ps.set i { p with position := { p.position with y := newY },
                          previous := { p.previous with y := newY } }

/-- One anchor-pair span of Cloth.applyPreSagOnTopRow. -/
def preSagSpan (top pinnedCols : List ℕ) (dx : ℝ) (ps : List Particle) (a : ℕ) :
    List Particle :=
  let leftCol := pinnedCols.getD a 0
  let rightCol := pinnedCols.getD (a + 1) 0
  let spanCols := rightCol - leftCol
  if spanCols ≤ 1 then ps else
  let spanWidth := (spanCols : ℝ) * dx
  let maxSag := spanWidth * 0.55
  let leftIdx := top.getD leftCol 0
  let rightIdx := top.getD rightCol 0
  let yLeft := ((ps.get? leftIdx).map (fun p => p.position.y)).getD 0
  let yRight := ((ps.get? rightIdx).map (fun p => p.position.y)).getD 0
  let yBaseline := min yLeft yRight
  (List.range' (leftCol + 1) (spanCols - 1)).foldl
    (preSagInner top yBaseline maxSag leftCol spanCols) ps

/-- Cloth.applyPreSagOnTopRow: needs at least two pinned top-row columns,
then repeatedly applies the parabolic dip between consecutive pinned columns. -/
def applyPreSagOnTopRow (cl : ClothState) (rep : ℕ) : ClothState :=
  let top := topRowIndices cl.segmentsX
  let pinnedCols := (List.range top.length).filter (fun i => pinnedAt cl (top.getD i 0))
  if pinnedCols.length < 2 then cl else
  let dx := cl.width / (cl.segmentsX : ℝ)
  { cl with
    particles :=
      (List.range rep).foldl
        (fun ps _ =>
          (List.range (pinnedCols.length - 1)).foldl (preSagSpan top pinnedCols dx) ps)
        cl.particles }

/-- One iteration of Cloth.relaxConstraints: a satisfaction pass followed by
a pre-sag shaping pass when physics has not started. -/
def relaxIter (cl : ClothState) : ClothState :=
  let cl1 := relaxPass cl
  if cl1.physicsEnabled then cl1 else applyPreSagOnTopRow cl1 3

/-- Cloth.relaxConstraints: 12 iterations plus a final pre-sag pass when
physics has not started. -/
def relaxConstraints (cl : ClothState) : ClothState :=
  let cl1 := (List.range 12).foldl (fun s _ => relaxIter s) cl
  if cl1.physicsEnabled then cl1 else applyPreSagOnTopRow cl1 5

/-- Cloth.togglePin: no-op (returning false) on an undefined index, on a
non-top-row index, or once physics has started; otherwise toggles the pin
state, relaxes the cloth and returns the new pin state. -/
def togglePin (cl : ClothState) (index : ℕ) : Bool × ClothState :=
  match cl.particles.get? index with
  | none => (false, cl)
  | some p =>
      if index ∉ topRowIndices cl.segmentsX then (false, cl)
      else if cl.physicsEnabled then (false, cl)
      else
        let p' := if p.pinned then p.unpin else p.pinToCurrent
        let cl1 := { cl with particles := cl.particles.set index p' }
        let cl2 := relaxConstraints cl1
        (((cl2.particles.get? index).map (·.pinned)).getD false, cl2)

/-- The unpin loop at the end of Cloth.startSimulation: unpin every particle
whose index is not a top-row index. -/
def unpinGo (top : List ℕ) : ℕ → List Particle → List Particle
  | _, [] => []
  | i, p :: rest => (if i ∈ top then p else p.unpin) :: unpinGo top (i + 1) rest

/-- Cloth.startSimulation: refuse (returning false, state untouched) when no
top-row particle is pinned; otherwise run 12 satisfaction passes, one
pre-sag pass, enable physics, unpin all non-top-row particles and return
true. -/
def startSimulation (cl : ClothState) : Bool × ClothState :=
  let top := topRowIndices cl.segmentsX
  let hasConstraintPoints := top.any (fun i => pinnedAt cl i)
  if hasConstraintPoints then
    let cl1 := (List.range 12).foldl (fun s _ => relaxPass s) cl
    let cl2 := applyPreSagOnTopRow cl1 1
    let cl3 := { cl2 with physicsEnabled := true }
    let cl4 := { cl3 with particles := unpinGo top 0 cl3.particles }
    (true, cl4)
  else (false, cl)

/-- Whether the constraint at index j is broken (missing indices count as
broken = false). -/
def brokenAt (st : ClothState) (j : ℕ) : Bool :=
  ((st.constraints.get? j).map (·.broken)).getD false

end ClothJS

/-! Embedding of the ClothPhysics system of src/main.js (namespace Phys). -/

namespace Phys

/-- Duck-typed particle record of ClothPhysics.init in src/main.js. -/
structure PParticle where
  position : Vec3
  previousPosition : Vec3
  originalPosition : Vec3
  velocity : Vec3
  force : Vec3
  mass : ℝ
  pinned : Bool
  index : ℕ
  x : ℕ
  y : ℕ
  active : Bool
  cutFactor : ℝ

/-- Constraint record of ClothPhysics.addConstraint; the two particle
references are modelled as indices into the particle list. -/
structure PConstraint where
  i1 : ℕ
  i2 : ℕ
  restLength : ℝ
  stiffness : ℝ
  baseStiffness : ℝ
  active : Bool

/-- Physics parameters of ClothPhysics (this.params). -/
structure PParams where
  mass : ℝ
  damping : ℝ
  gravity : ℝ
  windForce : ℝ
  windFrequency : ℝ
  stiffness : ℝ
  bendingStiffness : ℝ
  tearThreshold : ℝ

/-- State of a ClothPhysics instance (the cutParticles index set and the
grid dimensions are irrelevant to the verified claims and omitted). -/
structure PState where
  params : PParams
  particles : List PParticle
  constraints : List PConstraint
  time : ℝ

/-- The pin-clearing prologue of ClothPhysics.attachToPivots. -/
def clearPins (ps : List PParticle) : List PParticle :=
  ps.map (fun p => { p with pinned := false })

/-- Distance used by attachToPivots: from the particle's ORIGINAL (rest-grid)
position to the pivot point. -/
def distToPivot (pivot : Vec3) (p : PParticle) : ℝ :=
  p.originalPosition.distanceTo pivot

/-- The nearest-particle scan of attachToPivots: walk the particle list,
considering only top-row particles (y = 0), keeping the strictly closer
candidate (so the first particle wins ties), starting from
nearestParticle = null / minDistance = Infinity. -/
def findNearestTopAux (pivot : Vec3) :
    List PParticle → ℕ → Option (ℕ × ℝ) → Option (ℕ × ℝ)
  | [], _, best => best
  | p :: rest, i, best =>
      let best' :=
        if p.y = 0 then
          let dist := distToPivot pivot p
          match best with
          | none => some (i, dist)
          | some (j, d) => if dist < d then some (i, dist) else some (j, d)
        else best
      findNearestTopAux pivot rest (i + 1) best'

/-- Nearest top-row particle to a pivot, with its distance. -/
def findNearestTop (pivot : Vec3) (ps : List PParticle) : Option (ℕ × ℝ) :=
  findNearestTopAux pivot ps 0 none

/-- The per-pivot body of attachToPivots: pin the nearest top-row particle
and snap its position and previousPosition to the pivot, but only when the
minimum distance is below 0.5. -/
def applyPivot (ps : List PParticle) (pivot : Vec3) : List PParticle :=
  match findNearestTop pivot ps with
  | none => ps
  | some (i, d) =>
      if d < 0.5 then
        match ps.get? i with
        | some p =>
            ps.set i { p with pinned := true, position := pivot,
                              previousPosition := pivot }
        | none => ps
      else ps

/-- ClothPhysics.attachToPivots: clear every pin, then process each pivot. -/
def attachToPivots (pivots : List Vec3) (ps : List PParticle) : List PParticle :=
  pivots.foldl applyPivot (clearPins ps)

/-- One constraint visit of ClothPhysics.satisfyConstraints: skip inactive
constraints and constraints with an inactive endpoint; tear (deactivate)
when the current length exceeds restLength * (tearThreshold * min cutFactor);
otherwise move the unpinned endpoints by the stiffness-scaled correction
(half-half when both endpoints are unpinned). -/
def satisfyConstraintAt (tearThreshold : ℝ) (st : PState) (j : ℕ) : PState :=
  match st.constraints.get? j with
  | none => st
  | some c =>
      match st.particles.get? c.i1, st.particles.get? c.i2 with
      | some p1, some p2 =>
          if c.active ∧ p1.active ∧ p2.active then
            let diffV := p2.position - p1.position
            let currentLength := diffV.length
            if 0 < currentLength then
              let tearResistance := min p1.cutFactor p2.cutFactor
              let effectiveTearThreshold := tearThreshold * tearResistance
              if currentLength > c.restLength * effectiveTearThreshold then
                { st with constraints := st.constraints.set j { c with active := false } }
              else
                let correction := ((1 - c.restLength / currentLength) * c.stiffness) • diffV
                if ¬p1.pinned ∧ ¬p2.pinned then
                  { st with
                    particles :=
                      (st.particles.set c.i1
                        { p1 with position := p1.position + (0.5 : ℝ) • correction }).set c.i2
                        { p2 with position := p2.position - (0.5 : ℝ) • correction } }
                else if ¬p1.pinned then
                  { st with
                    particles :=
                      st.particles.set c.i1
                        { p1 with position := p1.position + correction } }
                else if ¬p2.pinned then
                  { st with
                    particles :=
                      st.particles.set c.i2
                        { p2 with position := p2.position - correction } }
                else st
            else st
          else st
      | _, _ => st

/-- ClothPhysics.satisfyConstraints: one pass over all constraints in order. -/
def satisfyConstraints (st : PState) : PState :=
  (List.range st.constraints.length).foldl
    (satisfyConstraintAt st.params.tearThreshold) st

/-- The force-accumulation body of ClothPhysics.update for one particle:
gravity, time-varying wind, one random turbulence draw (turb), and velocity
damping; pinned or inactive particles are skipped. -/
def applyForcesAt (params : PParams) (time turb : ℝ) (p : PParticle) : PParticle :=
  if ¬p.pinned ∧ p.active then
    let f0 : Vec3 := ⟨0, params.gravity * p.mass, 0⟩
    let windX := Real.sin (time * params.windFrequency) * params.windForce
    let windZ := Real.cos (time * params.windFrequency * 0.7) * params.windForce * 0.5
    let turbulence := (turb - 0.5) * 0.02
    let f1 : Vec3 := ⟨f0.x + windX + turbulence, f0.y, f0.z + windZ + turbulence * 0.5⟩
    let f2 := f1 + (-params.damping) • p.velocity
    { p with force := f2 }
  else p

/-- The force loop of ClothPhysics.update; the Math.random() turbulence draw
of particle number i is rand i. -/
def forcesGo (params : PParams) (time : ℝ) (rand : ℕ → ℝ) :
    ℕ → List PParticle → List PParticle
  | _, [] => []
  | i, p :: rest =>
      applyForcesAt params time (rand i) p :: forcesGo params time rand (i + 1) rest

/-- The Verlet-integration body of ClothPhysics.update for one particle
(skipping pinned or inactive particles). -/
def integrateAt (dt : ℝ) (p : PParticle) : PParticle :=
  if ¬p.pinned ∧ p.active then
    let temp := p.position
    let newPos := p.position + (p.position - p.previousPosition + (dt * dt / p.mass) • p.force)
    { p with position := newPos, previousPosition := temp,
             velocity := (1 / dt) • (newPos - temp) }
  else p

/-- The body of ClothPhysics.update after the timestep clamp: advance time,
re-pin to the pivots, apply forces, integrate, then run 4 satisfaction
passes. -/
def updateCore (st : PState) (pivots : List Vec3) (deltaTime : ℝ) (rand : ℕ → ℝ) :
    PState :=
  let st1 := { st with time := st.time + deltaTime,
                       particles := attachToPivots pivots st.particles }
  let ps1 := forcesGo st1.params st1.time rand 0 st1.particles
  let ps2 := ps1.map (integrateAt deltaTime)
  let st2 := { st1 with particles := ps2 }
  satisfyConstraints (satisfyConstraints (satisfyConstraints (satisfyConstraints st2)))

/-- ClothPhysics.update: clamp deltaTime from above to 0.02 (only from
above: non-positive values pass through), then run the update body. -/
def update (st : PState) (pivots : List Vec3) (deltaTime : ℝ) (rand : ℕ → ℝ) :
    PState :=
  updateCore st pivots (if deltaTime > 0.02 then 0.02 else deltaTime) rand

/-- The planar (x/z) distance used by ClothPhysics.cutOrganic. -/
def planarDist (center p : Vec3) : ℝ :=
  Real.sqrt ((p.x - center.x) * (p.x - center.x) + (p.z - center.z) * (p.z - center.z))

/-- The per-particle body of ClothPhysics.cutOrganic.  Inside the hard
radius the particle is deactivated; in the outer shell (radius, 1.5*radius)
its cutFactor is ASSIGNED max(0.2, 1 - falloff) (not combined with the
previous value), and with probability one half (first random draw r1) the
particle is pushed away from the center by r2 * 0.1 (second draw).  The
jittered cutShape polygon and the inside flag of the source are computed
but never read (dead code) and are omitted, as is the cutParticles
bookkeeping set. -/
def cutOrganicParticleUpdate (center : Vec3) (radius r1 r2 : ℝ) (p : PParticle) :
    PParticle :=
  let distance := planarDist center p.position
  if distance < radius * 1.5 then
    if distance < radius then { p with active := false }
    else
      let falloff := 1 - (distance - radius) / (radius * 0.5)
      let p1 := { p with cutFactor := max 0.2 (1 - falloff) }
      if r1 > 0.5 then
        let pushDirection := (p1.position - center).normalize
        { p1 with position := p1.position + (r2 * 0.1) • pushDirection }
      else p1
  else p

/-- The particle loop of cutOrganic; particle number i consumes the random
draws rand (2i) (displacement decision) and rand (2i+1) (displacement
magnitude). -/
def cutOrganicGo (center : Vec3) (radius : ℝ) (rand : ℕ → ℝ) :
    ℕ → List PParticle → List PParticle
  | _, [] => []
  | i, p :: rest =>
      cutOrganicParticleUpdate center radius (rand (2 * i)) (rand (2 * i + 1)) p ::
        cutOrganicGo center radius rand (i + 1) rest

/-- The particle pass of ClothPhysics.cutOrganic. -/
def cutOrganicParticles (center : Vec3) (radius : ℝ) (rand : ℕ → ℝ)
    (ps : List PParticle) : List PParticle :=
  cutOrganicGo center radius rand 0 ps

/-- The per-constraint body of cutOrganic's constraint pass: deactivate when
an endpoint is inactive; soften from baseStiffness (minFactor = 0.5) when an
endpoint carries damage; otherwise restore baseStiffness. -/
def cutOrganicConstraintUpdate (c : PConstraint) (p1 p2 : PParticle) : PConstraint :=
  if ¬p1.active ∨ ¬p2.active then { c with active := false }
  else if p1.cutFactor < 1 ∨ p2.cutFactor < 1 then
    { c with
      stiffness :=
        max (0.5 * c.baseStiffness) (min p1.cutFactor p2.cutFactor * c.baseStiffness) }
  else { c with stiffness := c.baseStiffness }

/-- The constraint pass of ClothPhysics.cutOrganic. -/
def cutOrganicConstraints (ps : List PParticle) (cs : List PConstraint) :
    List PConstraint :=
  cs.map (fun c =>
    match ps.get? c.i1, ps.get? c.i2 with
    | some p1, some p2 => cutOrganicConstraintUpdate c p1 p2
    | _, _ => c)

/-- ClothPhysics.cutOrganic: particle pass, then constraint pass over the
updated particles. -/
def cutOrganic (st : PState) (center : Vec3) (radius : ℝ) (rand : ℕ → ℝ) : PState :=
  let ps := cutOrganicParticles center radius rand st.particles
  { st with particles := ps, constraints := cutOrganicConstraints ps st.constraints }

/-- THREE.MathUtils.clamp. -/
def clampR (x lo hi : ℝ) : ℝ := max lo (min hi x)

/-- The distPointToSeg helper of ClothPhysics.cutAlongSegment (distance from
a point to the closest point of the finite segment, with the 1e-6 guard on
the squared segment length). -/
def distPointToSeg (start e point : Vec3) : ℝ :=
  let v := e - start
  let l2 := max 1e-6 v.lengthSq
  let t := clampR ((point - start).dot v / l2) 0 1
  let proj := start + t • v
  proj.distanceTo point

/-- The per-particle body of ClothPhysics.cutAlongSegment: inactive
particles are skipped; distance at most radius deactivates; distance in the
shell (radius, 1.6*radius] lowers cutFactor by min with the falloff value. -/
def cutAlongParticleUpdate (start e : Vec3) (radius : ℝ) (p : PParticle) : PParticle :=
  if p.active then
    let d := distPointToSeg start e p.position
    if d ≤ radius then { p with active := false }
    else if d ≤ radius * 1.6 then
      let falloff := 1 - (d - radius) / (radius * 1.6 - radius)
      { p with cutFactor := min p.cutFactor (1 - 0.6 * falloff) }
    else p
  else p

/-- The approximate edge-to-segment distance of cutAlongSegment's constraint
pass: project the cut segment's endpoints onto the edge line (clamped), then
take the smaller distance of the two closest points to the cut segment. -/
def cutAlongEdgeDist (start e : Vec3) (p1 p2 : PParticle) : ℝ :=
  let a := p1.position
  let b := p2.position
  let ab := b - a
  let abLenSq := max 1e-6 ab.lengthSq
  let t1 := clampR ((start - a).dot ab / abLenSq) 0 1
  let t2 := clampR ((e - a).dot ab / abLenSq) 0 1
  let c1 := a + t1 • ab
  let c2 := a + t2 • ab
  min (distPointToSeg start e c1) (distPointToSeg start e c2)

/-- The per-constraint body of cutAlongSegment: skip inactive constraints;
deactivate when the edge passes within radius of the cut segment or an
endpoint is inactive; otherwise soften from baseStiffness with the
minFactor = 0.5 floor. -/
def cutAlongConstraintUpdate (start e : Vec3) (radius : ℝ) (c : PConstraint)
    (p1 p2 : PParticle) : PConstraint :=
  if c.active then
    let d := cutAlongEdgeDist start e p1 p2
    if d ≤ radius ∨ ¬p1.active ∨ ¬p2.active then { c with active := false }
    else
      { c with
        stiffness :=
          max (0.5 * c.baseStiffness) (min p1.cutFactor p2.cutFactor * c.baseStiffness) }
  else c

/-- ClothPhysics.cutAlongSegment: no-op for a degenerate segment; otherwise
the particle capsule pass, then the constraint pass over the updated
particles. -/
def cutAlongSegment (st : PState) (start e : Vec3) (radius : ℝ) : PState :=
  if (e - start).length < 1e-6 then st
  else
    let ps := st.particles.map (cutAlongParticleUpdate start e radius)
    { st with
      particles := ps,
      constraints :=
        st.constraints.map (fun c =>
          match ps.get? c.i1, ps.get? c.i2 with
          | some p1, some p2 => cutAlongConstraintUpdate start e radius c p1 p2
          | _, _ => c) }

/-- Whether the constraint at index j is active (missing indices count as
active = false). -/
def cActiveAt (st : PState) (j : ℕ) : Bool :=
  ((st.constraints.get? j).map (·.active)).getD false

end Phys

/-! Concrete fixtures used by witness and counterexample theorems. -/

/-- Fresh cloth.js particle at a given position with unit mass. -/
def mkQ (pos : Vec3) (pin : Bool) : ClothJS.Particle :=
  { position := pos, previous := pos, acceleration := 0, inverseMass := 1,
    pinned := pin, pinPosition := 0 }

/-- Pinned cloth.js particle fixture with distinct position and pinPosition. -/
def pinnedQ : ClothJS.Particle :=
  { position := ⟨1, 2, 3⟩, previous := ⟨0, 0, 0⟩, acceleration := ⟨0, -5, 0⟩,
    inverseMass := 1, pinned := true, pinPosition := ⟨7, 8, 9⟩ }

/-- Minimal enabled cloth.js state with one free particle, no constraints,
gravity -9.81 and zero relaxation iterations, used to exercise Cloth.step. -/
def clothFree : ClothJS.ClothState :=
  { width := 10, height := 6, segmentsX := 0, segmentsY := 0,
    gravity := ⟨0, -9.81, 0⟩, damping := 0.02, iterations := 0, tearFactor := 1.75,
    particles := [mkQ ⟨0, 0, 0⟩ false], constraints := [], physicsEnabled := true }

/-- Two free cloth.js particles a distance 2 apart with a rest-1 constraint. -/
def pairState : ClothJS.ClothState :=
  { width := 10, height := 6, segmentsX := 1, segmentsY := 0,
    gravity := ⟨0, -9.81, 0⟩, damping := 0.02, iterations := 5, tearFactor := 1.75,
    particles := [mkQ ⟨0, 0, 0⟩ false, mkQ ⟨2, 0, 0⟩ false],
    constraints := [{ i1 := 0, i2 := 1, restDistance := 1, stiffness := 1, broken := false }],
    physicsEnabled := true }

/-- Single-particle cloth.js state with the particle unpinned (segmentsX 0,
so the top row is exactly index 0). -/
def clothUnpinned : ClothJS.ClothState :=
  { width := 10, height := 6, segmentsX := 0, segmentsY := 0,
    gravity := ⟨0, -9.81, 0⟩, damping := 0.02, iterations := 5, tearFactor := 1.75,
    particles := [mkQ ⟨0, 4, 0⟩ false], constraints := [], physicsEnabled := false }

/-- Single-particle cloth.js state with the particle pinned. -/
def clothPinned : ClothJS.ClothState :=
  { clothUnpinned with particles := [mkQ ⟨0, 4, 0⟩ true] }

/-- Two-particle cloth.js state (segmentsX 0: only index 0 is top row). -/
def clothTwo : ClothJS.ClothState :=
  { clothUnpinned with particles := [mkQ ⟨0, 4, 0⟩ false, mkQ ⟨1, 4, 0⟩ false] }

/-- Fresh main.js particle record. -/
def mkP (pos orig : Vec3) (yc : ℕ) (act : Bool) (cf : ℝ) : Phys.PParticle :=
  { position := pos, previousPosition := pos, originalPosition := orig,
    velocity := 0, force := 0, mass := 0.1, pinned := false, index := 0,
    x := 0, y := yc, active := act, cutFactor := cf }

/-- Default main.js parameter block (the literals of ClothPhysics). -/
def defaultParams : Phys.PParams :=
  { mass := 0.1, damping := 0.02, gravity := -9.8, windForce := 0.15,
    windFrequency := 1.5, stiffness := 0.85, bendingStiffness := 0.15,
    tearThreshold := 2.8 }

/-- Main.js state with a damaged endpoint (cutFactor 0.5) and a rest-1
constraint whose endpoints are 2 apart: 2 never exceeds
restLength * tearThreshold = 2.8, yet 2 > 1 * (2.8 * 0.5) = 1.4 tears it. -/
def tornState : Phys.PState :=
  { params := defaultParams,
    particles := [mkP ⟨0, 0, 0⟩ ⟨0, 0, 0⟩ 0 true 0.5, mkP ⟨2, 0, 0⟩ ⟨2, 0, 0⟩ 0 true 1],
    constraints :=
      [{ i1 := 0, i2 := 1, restLength := 1, stiffness := 0.85, baseStiffness := 0.85,
         active := true }],
    time := 0 }

/-- Main.js particle with an already lowered cutFactor of 0.2, sitting at
planar distance 0.5 from the origin. -/
def damagedP : Phys.PParticle := mkP ⟨0.5, 0, 0⟩ ⟨0.5, 0, 0⟩ 0 true 0.2

/-- Inactive top-row main.js particle whose rest position coincides with the
pivot fixture. -/
def inactiveTopP : Phys.PParticle := mkP ⟨3, -1, 0⟩ ⟨0, 0, 0⟩ 0 false 1

/-- Active top-row main.js particle at the origin rest position. -/
def topP : Phys.PParticle := mkP ⟨0, 0, 0⟩ ⟨0, 0, 0⟩ 0 true 1

/-- Empty main.js state fixture. -/
def emptyPState : Phys.PState :=
  { params := defaultParams, particles := [], constraints := [], time := 0 }

/-! Claim theorems. -/

/-- Claim C3: for every particle with pinned = true, after
integrate(dt, damping) the position and previousPosition both equal the
particle's pinPosition exactly and the accumulated acceleration is zero,
regardless of any force applied (addForce) or implicit velocity held before
the call. -/
theorem claim_c3_pinned_integration (p : ClothJS.Particle) (dt damping : ℝ)
    (h : p.pinned = true) :
    (p.integrate dt damping).position = p.pinPosition ∧
    (p.integrate dt damping).previous = p.pinPosition ∧
    (p.integrate dt damping).acceleration = 0 ∧
    ∀ f : Vec3, (p.addForce f).integrate dt damping = p.integrate dt damping := by
  refine ⟨?_, ?_, ?_, ?_⟩
  · simp [ClothJS.Particle.integrate, h]
  · simp [ClothJS.Particle.integrate, h]
  · simp [ClothJS.Particle.integrate, h]
  · intro f
    by_cases hm : p.inverseMass = 0
    · simp [ClothJS.Particle.addForce, hm]
    · simp [ClothJS.Particle.addForce, hm, ClothJS.Particle.integrate, h]

/-- Witness for C3 at the concrete pinned particle fixture. -/
theorem claim_c3_pinned_integration_witness :
    (pinnedQ.integrate 0.016 0.02).position = ⟨7, 8, 9⟩ ∧
    (pinnedQ.integrate 0.016 0.02).previous = ⟨7, 8, 9⟩ ∧
    (pinnedQ.integrate 0.016 0.02).acceleration = 0 :=
  ⟨(claim_c3_pinned_integration pinnedQ 0.016 0.02 rfl).1,
   (claim_c3_pinned_integration pinnedQ 0.016 0.02 rfl).2.1,
   (claim_c3_pinned_integration pinnedQ 0.016 0.02 rfl).2.2.1⟩

/-- Helper: the surviving-constraint branch of cutAlongSegment's constraint
pass rewrites the stiffness from baseStiffness. -/
theorem cutAlong_update_surviving (start e : Vec3) (radius : ℝ)
    (c : Phys.PConstraint) (p1 p2 : Phys.PParticle)
    (hc : c.active = true) (h1 : p1.active = true) (h2 : p2.active = true)
    (hd : ¬(Phys.cutAlongEdgeDist start e p1 p2 ≤ radius)) :
    Phys.cutAlongConstraintUpdate start e radius c p1 p2 =
      { c with
        stiffness :=
          max (0.5 * c.baseStiffness) (min p1.cutFactor p2.cutFactor * c.baseStiffness) } := by
  have hcond : ¬(Phys.cutAlongEdgeDist start e p1 p2 ≤ radius ∨
      ¬p1.active = true ∨ ¬p2.active = true) := by
    push_neg
    exact ⟨lt_of_not_le hd, h1, h2⟩
  unfold Phys.cutAlongConstraintUpdate
  rw [if_pos hc]
  exact if_neg hcond

/-- Claim C4: for a constraint whose endpoints remain active and carry
damage (a cutFactor below 1), both cut operations set
stiffness = max(minFactor * baseStiffness, min(f1, f2) * baseStiffness)
with minFactor = 0.5, recomputed from the immutable baseStiffness and
independent of the current (possibly already reduced) stiffness; hence two
overlapping cuts leaving factors 0.6 and 0.8 give 0.6 * baseStiffness in
either application order. -/
theorem claim_c4_stiffness_noncompounding :
    (∀ (c : Phys.PConstraint) (p1 p2 : Phys.PParticle) (s : ℝ),
      p1.active = true → p2.active = true →
      (Phys.cutOrganicConstraintUpdate { c with stiffness := s } p1 p2).stiffness =
        (Phys.cutOrganicConstraintUpdate c p1 p2).stiffness) ∧
    (∀ (c : Phys.PConstraint) (p1 p2 : Phys.PParticle),
      p1.active = true → p2.active = true →
      (p1.cutFactor < 1 ∨ p2.cutFactor < 1) →
      (Phys.cutOrganicConstraintUpdate c p1 p2).stiffness =
          max (0.5 * c.baseStiffness) (min p1.cutFactor p2.cutFactor * c.baseStiffness) ∧
        (Phys.cutOrganicConstraintUpdate c p1 p2).baseStiffness = c.baseStiffness ∧
        (Phys.cutOrganicConstraintUpdate c p1 p2).active = c.active) ∧
    (∀ (start e : Vec3) (radius : ℝ) (c : Phys.PConstraint) (p1 p2 : Phys.PParticle) (s : ℝ),
      c.active = true → p1.active = true → p2.active = true →
      ¬(Phys.cutAlongEdgeDist start e p1 p2 ≤ radius) →
      (Phys.cutAlongConstraintUpdate start e radius c p1 p2).stiffness =
          max (0.5 * c.baseStiffness) (min p1.cutFactor p2.cutFactor * c.baseStiffness) ∧
        (Phys.cutAlongConstraintUpdate start e radius { c with stiffness := s } p1 p2).stiffness =
          (Phys.cutAlongConstraintUpdate start e radius c p1 p2).stiffness) ∧
    (∀ (c : Phys.PConstraint) (p1 p2 : Phys.PParticle),
      p1.active = true → p2.active = true →
      p1.cutFactor = 0.6 → p2.cutFactor = 0.8 → 0 ≤ c.baseStiffness →
      (Phys.cutOrganicConstraintUpdate c p1 p2).stiffness = 0.6 * c.baseStiffness) := by
  refine ⟨?_, ?_, ?_, ?_⟩
  · intro c p1 p2 s h1 h2
    by_cases hf : p1.cutFactor < 1 ∨ p2.cutFactor < 1 <;>
      simp [Phys.cutOrganicConstraintUpdate, h1, h2, hf]
  · intro c p1 p2 h1 h2 hf
    simp [Phys.cutOrganicConstraintUpdate, h1, h2, hf]
  · intro start e radius c p1 p2 s hc h1 h2 hd
    have hd' : ¬(Phys.cutAlongEdgeDist start e p1 p2 ≤ radius) := hd
    rw [cutAlong_update_surviving start e radius c p1 p2 hc h1 h2 hd,
        cutAlong_update_surviving start e radius { c with stiffness := s } p1 p2 hc h1 h2 hd']
    exact ⟨rfl, rfl⟩
  · intro c p1 p2 h1 h2 hf1 hf2 hb
    have hlt : p1.cutFactor < 1 ∨ p2.cutFactor < 1 := by
      left; rw [hf1]; norm_num
    have hmin : min p1.cutFactor p2.cutFactor = 0.6 := by
      rw [hf1, hf2]; norm_num
    have hmax : max (0.5 * c.baseStiffness) (0.6 * c.baseStiffness) = 0.6 * c.baseStiffness := by
      apply max_eq_right
      apply mul_le_mul_of_nonneg_right _ hb
      norm_num
    simp [Phys.cutOrganicConstraintUpdate, h1, h2, hlt, hmin, hmax]

/-- Witness for C4: endpoints with cutFactor 0.6 and 0.8 and a constraint
with baseStiffness 0.85 end with stiffness 0.6 * 0.85, independently of the
pre-cut stiffness. -/
theorem claim_c4_stiffness_noncompounding_witness :
    (Phys.cutOrganicConstraintUpdate
        { i1 := 0, i2 := 1, restLength := 1, stiffness := 0.3, baseStiffness := 0.85,
          active := true }
        (mkP ⟨0, 0, 0⟩ ⟨0, 0, 0⟩ 0 true 0.6) (mkP ⟨1, 0, 0⟩ ⟨1, 0, 0⟩ 0 true 0.8)).stiffness =
      0.6 * 0.85 := by
  have h := claim_c4_stiffness_noncompounding.2.2.2
      { i1 := 0, i2 := 1, restLength := 1, stiffness := 0.3, baseStiffness := 0.85,
        active := true }
      (mkP ⟨0, 0, 0⟩ ⟨0, 0, 0⟩ 0 true 0.6) (mkP ⟨1, 0, 0⟩ ⟨1, 0, 0⟩ 0 true 0.8)
      (by simp [mkP]) (by simp [mkP]) (by simp [mkP]) (by simp [mkP]) (by norm_num)
  simpa using h

/-- Claim C1: one Constraint.satisfy call computes the vector between its
two endpoints; if the current length is zero, or the combined effective
inverse mass is zero (both endpoints pinned), neither endpoint position
changes; otherwise the scalar correction
diff = (currentLength - restLength) / currentLength * (0.25 * stiffness) is
applied along the connecting vector, split between the two particles in
proportion to their effective inverse-mass shares, and a pinned endpoint
(zero effective inverse mass) is unchanged. -/
theorem claim_c1_satisfy_contract (ps : List ClothJS.Particle) (c : ClothJS.Constraint)
    (p1 p2 : ClothJS.Particle) (delta : Vec3) (L inv1 inv2 diff : ℝ)
    (h1 : ps.get? c.i1 = some p1) (h2 : ps.get? c.i2 = some p2)
    (hb : c.broken = false)
    (hdelta : delta = p2.position - p1.position)
    (hL : L = delta.length)
    (hi1 : inv1 = if p1.pinned then 0 else p1.inverseMass)
    (hi2 : inv2 = if p2.pinned then 0 else p2.inverseMass)
    (hdiff : diff = (L - c.restDistance) / L * (0.25 * c.stiffness)) :
    (L = 0 → ClothJS.satisfy ps c = ps) ∧
    (inv1 + inv2 = 0 → ClothJS.satisfy ps c = ps) ∧
    (L ≠ 0 → inv1 + inv2 ≠ 0 →
      ClothJS.satisfy ps c =
        (ps.set c.i1
            { p1 with position := p1.position + (inv1 / (inv1 + inv2) * diff) • delta }).set
          c.i2 { p2 with position := p2.position - (inv2 / (inv1 + inv2) * diff) • delta }) ∧
    (L ≠ 0 → inv1 + inv2 ≠ 0 → p1.pinned = true →
      (ClothJS.satisfy ps c).get? c.i1 = some p1) ∧
    (L ≠ 0 → inv1 + inv2 ≠ 0 → p2.pinned = true →
      (ClothJS.satisfy ps c).get? c.i2 = some p2) := by
  subst hdelta hL hi1 hi2 hdiff
  have hmain : ∀ hL0 : ¬((p2.position - p1.position).length = 0),
      ∀ hS0 : ¬((if p1.pinned then (0:ℝ) else p1.inverseMass) +
        (if p2.pinned then 0 else p2.inverseMass) = 0),
      ClothJS.satisfy ps c =
        (ps.set c.i1
            { p1 with position := p1.position +
                ((if p1.pinned then (0:ℝ) else p1.inverseMass) /
                    ((if p1.pinned then (0:ℝ) else p1.inverseMass) +
                      (if p2.pinned then 0 else p2.inverseMass)) *
                  (((p2.position - p1.position).length - c.restDistance) /
                      (p2.position - p1.position).length * (0.25 * c.stiffness))) •
                (p2.position - p1.position) }).set
          c.i2
          { p2 with position := p2.position -
              ((if p2.pinned then (0:ℝ) else p2.inverseMass) /
                  ((if p1.pinned then (0:ℝ) else p1.inverseMass) +
                    (if p2.pinned then 0 else p2.inverseMass)) *
                (((p2.position - p1.position).length - c.restDistance) /
                    (p2.position - p1.position).length * (0.25 * c.stiffness))) •
              (p2.position - p1.position) } := by
    intro hL0 hS0
    unfold ClothJS.satisfy
    rw [h1, h2]
    simp only [hb, Bool.false_eq_true, if_false]
    rw [if_neg hL0, if_neg hS0]
  have hne : ∀ hL0 : ¬((p2.position - p1.position).length = 0), c.i1 ≠ c.i2 := by
    intro hL0 he
    apply hL0
    rw [he] at h1
    rw [h1] at h2
    have hp : p1 = p2 := by injection h2
    rw [hp]
    simp
  refine ⟨?_, ?_, ?_, ?_, ?_⟩
  · intro hL0
    unfold ClothJS.satisfy
    rw [h1, h2]
    simp only [hb, Bool.false_eq_true, if_false]
    rw [if_pos hL0]
  · intro hS0
    by_cases hL0 : (p2.position - p1.position).length = 0
    · unfold ClothJS.satisfy
      rw [h1, h2]
      simp only [hb, Bool.false_eq_true, if_false]
      rw [if_pos hL0]
    · unfold ClothJS.satisfy
      rw [h1, h2]
      simp only [hb, Bool.false_eq_true, if_false]
      rw [if_neg hL0, if_pos hS0]
  · intro hL0 hS0
    exact hmain hL0 hS0
  · intro hL0 hS0 hp1
    rw [hmain hL0 hS0]
    rw [list_get?_set_ne _ c.i2 c.i1 _ (Ne.symm (hne hL0))]
    rw [list_get?_set_self _ c.i1 _ (list_get?_some_lt ps c.i1 p1 h1)]
    have : ((if p1.pinned then (0:ℝ) else p1.inverseMass) /
        ((if p1.pinned then (0:ℝ) else p1.inverseMass) +
          (if p2.pinned then 0 else p2.inverseMass)) *
        (((p2.position - p1.position).length - c.restDistance) /
            (p2.position - p1.position).length * (0.25 * c.stiffness))) = 0 := by
      rw [if_pos hp1]
      simp
    rw [this]
    simp
  · intro hL0 hS0 hp2
    rw [hmain hL0 hS0]
    rw [list_get?_set_self _ c.i2 _
      (by rw [List.length_set]; exact list_get?_some_lt ps c.i2 p2 h2)]
    have : ((if p2.pinned then (0:ℝ) else p2.inverseMass) /
        ((if p1.pinned then (0:ℝ) else p1.inverseMass) +
          (if p2.pinned then 0 else p2.inverseMass)) *
        (((p2.position - p1.position).length - c.restDistance) /
            (p2.position - p1.position).length * (0.25 * c.stiffness))) = 0 := by
      rw [if_pos hp2]
      simp
    rw [this]
    simp

/-- Witness for C1: two free unit-mass particles 2 apart with rest length 1
and stiffness 1 share the correction diff = (2-1)/2 * 0.25 = 0.125 equally. -/
theorem claim_c1_satisfy_contract_witness :
    ClothJS.satisfy [mkQ ⟨0, 0, 0⟩ false, mkQ ⟨2, 0, 0⟩ false]
        { i1 := 0, i2 := 1, restDistance := 1, stiffness := 1, broken := false } =
      ([mkQ ⟨0, 0, 0⟩ false, mkQ ⟨2, 0, 0⟩ false].set 0
          { mkQ ⟨0, 0, 0⟩ false with
            position := (mkQ ⟨0, 0, 0⟩ false).position +
              ((1 : ℝ) / (1 + 1) * 0.125) • (⟨2, 0, 0⟩ : Vec3) }).set 1
        { mkQ ⟨2, 0, 0⟩ false with
          position := (mkQ ⟨2, 0, 0⟩ false).position -
            ((1 : ℝ) / (1 + 1) * 0.125) • (⟨2, 0, 0⟩ : Vec3) } := by
  have hL : (2 : ℝ) = Vec3.length ⟨2, 0, 0⟩ := by
    rw [Vec3.length, Vec3.lengthSq]
    exact (sqrt_eval (by norm_num) (by norm_num)).symm
  exact (claim_c1_satisfy_contract
      [mkQ ⟨0, 0, 0⟩ false, mkQ ⟨2, 0, 0⟩ false]
      { i1 := 0, i2 := 1, restDistance := 1, stiffness := 1, broken := false }
      (mkQ ⟨0, 0, 0⟩ false) (mkQ ⟨2, 0, 0⟩ false) ⟨2, 0, 0⟩ 2 1 1 0.125
      rfl rfl rfl (by ext <;> simp [mkQ]) hL (by simp [mkQ]) (by simp [mkQ])
      (by norm_num)).2.2.1 (by norm_num) (by norm_num)

/-- Helper: a broken constraint's satisfy call is a no-op. -/
theorem satisfy_of_broken (ps : List ClothJS.Particle) (c : ClothJS.Constraint)
    (h : c.broken = true) : ClothJS.satisfy ps c = ps := by
  unfold ClothJS.satisfy
  simp [h]

/-- Helper: Cloth.step skips a broken constraint entirely. -/
theorem stepConstraintAt_of_broken (tf : ℝ) (st : ClothJS.ClothState) (j : ℕ)
    (c : ClothJS.Constraint) (hc : st.constraints.get? j = some c)
    (hb : c.broken = true) : ClothJS.stepConstraintAt tf st j = st := by
  unfold ClothJS.stepConstraintAt
  rw [hc]
  simp [hb]

/-- Helper: the tearing branch of Cloth.step's constraint visit. -/
theorem stepConstraintAt_tear (tf : ℝ) (st : ClothJS.ClothState) (j : ℕ)
    (c : ClothJS.Constraint) (p1 p2 : ClothJS.Particle)
    (hc : st.constraints.get? j = some c) (hb : c.broken = false)
    (hp1 : st.particles.get? c.i1 = some p1) (hp2 : st.particles.get? c.i2 = some p2)
    (hd : p2.position.distanceTo p1.position > c.restDistance * tf) :
    ClothJS.stepConstraintAt tf st j =
      { st with constraints := st.constraints.set j { c with broken := true } } := by
  unfold ClothJS.stepConstraintAt
  rw [hc]
  simp only [hb, Bool.false_eq_true, if_false]
  rw [hp1, hp2]
  exact if_pos hd

/-- Helper: brokenAt of a state with replaced constraints, by definition. -/
theorem brokenAt_withConstraints (st : ClothJS.ClothState) (cs : List ClothJS.Constraint)
    (j : ℕ) :
    ClothJS.brokenAt { st with constraints := cs } j =
      ((cs.get? j).map (·.broken)).getD false := rfl

/-- Helper: brokenAt ignores the particle store. -/
theorem brokenAt_withParticles (st : ClothJS.ClothState) (ps : List ClothJS.Particle)
    (j : ℕ) :
    ClothJS.brokenAt { st with particles := ps } j = ClothJS.brokenAt st j := rfl

/-- Helper: one constraint visit of Cloth.step never clears a broken flag. -/
theorem stepConstraintAt_broken_mono (tf : ℝ) (st : ClothJS.ClothState) (j j' : ℕ)
    (h : ClothJS.brokenAt st j = true) :
    ClothJS.brokenAt (ClothJS.stepConstraintAt tf st j') j = true := by
  unfold ClothJS.stepConstraintAt
  split
  · exact h
  · rename_i c hc
    split
    · exact h
    · split
      · rename_i p1 p2 hp1 hp2
        dsimp only
        split
        · rw [brokenAt_withConstraints]
          by_cases hjj : j' = j
          · subst hjj
            rw [list_get?_set_self _ j' _ (list_get?_some_lt _ j' c hc)]
            rfl
          · rw [list_get?_set_ne _ j' j _ hjj]
            exact h
        · rw [brokenAt_withParticles]
          exact h
      · exact h

/-- Helper: one constraint visit of Cloth.step flips a broken flag only at
its own index and only through the over-stretch check. -/
theorem stepConstraintAt_tear_only (tf : ℝ) (st : ClothJS.ClothState) (j j' : ℕ)
    (h0 : ClothJS.brokenAt st j = false)
    (h1 : ClothJS.brokenAt (ClothJS.stepConstraintAt tf st j') j = true) :
    j' = j ∧ ∃ (c : ClothJS.Constraint) (p1 p2 : ClothJS.Particle),
      st.constraints.get? j = some c ∧ c.broken = false ∧
      st.particles.get? c.i1 = some p1 ∧ st.particles.get? c.i2 = some p2 ∧
      p2.position.distanceTo p1.position > c.restDistance * tf := by
  unfold ClothJS.stepConstraintAt at h1
  split at h1
  · exact absurd h1 (by rw [h0]; simp)
  · rename_i c hc
    split at h1
    · exact absurd h1 (by rw [h0]; simp)
    · rename_i hcb
      split at h1
      · rename_i p1 p2 hp1 hp2
        dsimp only at h1
        split at h1
        · rename_i hd
          by_cases hjj : j' = j
          · subst hjj
            exact ⟨rfl, c, p1, p2, hc, by simpa using hcb, hp1, hp2, hd⟩
          · rw [brokenAt_withConstraints, list_get?_set_ne _ j' j _ hjj] at h1
            have h0' : ((st.constraints.get? j).map (·.broken)).getD false = false := h0
            rw [h0'] at h1
            exact absurd h1 (by simp)
        · rw [brokenAt_withParticles, h0] at h1
          exact absurd h1 (by simp)
      · exact absurd h1 (by rw [h0]; simp)

/-- Helper: a full relaxation pass of Cloth.step never clears broken flags. -/
theorem stepPass_broken_mono (tf : ℝ) (st : ClothJS.ClothState) (order : List ℕ)
    (j : ℕ) (h : ClothJS.brokenAt st j = true) :
    ClothJS.brokenAt (ClothJS.stepPass tf st order) j = true :=
  foldl_preserve (fun s => ClothJS.brokenAt s j = true) (ClothJS.stepConstraintAt tf)
    (fun s j' hs => stepConstraintAt_broken_mono tf s j j' hs) order st h

/-- Helper: Cloth.step never clears broken flags. -/
theorem step_broken_mono (cl : ClothJS.ClothState) (dt : ℝ) (j : ℕ)
    (h : ClothJS.brokenAt cl j = true) :
    ClothJS.brokenAt (ClothJS.step cl dt) j = true := by
  unfold ClothJS.step
  by_cases hp : cl.physicsEnabled = true
  · simp only [hp, if_true]
    unfold ClothJS.stepRelax
    refine foldl_preserve (fun s => ClothJS.brokenAt s j = true) _ ?_ _ _ h
    intro s i hs
    by_cases hi : i % 2 = 1
    · simp only [hi, if_true]
      exact stepPass_broken_mono _ _ _ _ hs
    · simp only [hi, if_false]
      exact stepPass_broken_mono _ _ _ _ hs
  · simp only [hp, if_false]
    exact h

/-- Helper: cActiveAt of a state with replaced constraints, by definition. -/
theorem cActiveAt_withConstraints (st : Phys.PState) (cs : List Phys.PConstraint)
    (j : ℕ) :
    Phys.cActiveAt { st with constraints := cs } j =
      ((cs.get? j).map (·.active)).getD false := rfl

/-- Helper: cActiveAt ignores the particle store. -/
theorem cActiveAt_withParticles (st : Phys.PState) (ps : List Phys.PParticle)
    (j : ℕ) :
    Phys.cActiveAt { st with particles := ps } j = Phys.cActiveAt st j := rfl

/-- Helper: an inactive constraint is skipped by satisfyConstraints. -/
theorem satisfyConstraintAt_of_inactive (tt : ℝ) (st : Phys.PState) (j : ℕ)
    (c : Phys.PConstraint) (hc : st.constraints.get? j = some c)
    (h : c.active = false) : Phys.satisfyConstraintAt tt st j = st := by
  unfold Phys.satisfyConstraintAt
  split
  · rfl
  · rename_i c' hc'
    rw [hc] at hc'
    injection hc' with hcc
    subst hcc
    split
    · rename_i p1 p2 hp1 hp2
      rw [if_neg (by rw [h]; simp :
        ¬(c.active = true ∧ p1.active = true ∧ p2.active = true))]
    · rfl

/-- Helper: one constraint visit of satisfyConstraints flips an active flag
to false only at its own index and only when the current length exceeds the
damage-scaled threshold restLength * (tearThreshold * min cutFactor). -/
theorem satisfyConstraintAt_tear_only (tt : ℝ) (st : Phys.PState) (j j' : ℕ)
    (h0 : Phys.cActiveAt st j = true)
    (h1 : Phys.cActiveAt (Phys.satisfyConstraintAt tt st j') j = false) :
    j' = j ∧ ∃ (c : Phys.PConstraint) (p1 p2 : Phys.PParticle),
      st.constraints.get? j = some c ∧ c.active = true ∧
      p1.active = true ∧ p2.active = true ∧
      st.particles.get? c.i1 = some p1 ∧ st.particles.get? c.i2 = some p2 ∧
      (p2.position - p1.position).length >
        c.restLength * (tt * min p1.cutFactor p2.cutFactor) := by
  unfold Phys.satisfyConstraintAt at h1
  split at h1
  · exact absurd h1 (by rw [h0]; simp)
  · rename_i c hc
    split at h1
    · rename_i p1 p2 hp1 hp2
      split at h1
      · rename_i hact
        dsimp only at h1
        split at h1
        · rename_i hpos
          split at h1
          · rename_i hd
            by_cases hjj : j' = j
            · subst hjj
              exact ⟨rfl, c, p1, p2, hc, hact.1, hact.2.1, hact.2.2, hp1, hp2, hd⟩
            · rw [cActiveAt_withConstraints, list_get?_set_ne _ j' j _ hjj] at h1
              have h0' : ((st.constraints.get? j).map (·.active)).getD false = true := h0
              rw [h0'] at h1
              exact absurd h1 (by simp)
          · split at h1
            · rw [cActiveAt_withParticles, h0] at h1
              exact absurd h1 (by simp)
            · split at h1
              · rw [cActiveAt_withParticles, h0] at h1
                exact absurd h1 (by simp)
              · split at h1
                · rw [cActiveAt_withParticles, h0] at h1
                  exact absurd h1 (by simp)
                · exact absurd h1 (by rw [h0]; simp)
        · exact absurd h1 (by rw [h0]; simp)
      · exact absurd h1 (by rw [h0]; simp)
    · exact absurd h1 (by rw [h0]; simp)

/-- Helper: the tear branch of satisfyConstraints fires exactly when the
current length exceeds the damage-scaled effective threshold. -/
theorem satisfyConstraintAt_tear_eff (tt : ℝ) (st : Phys.PState) (j : ℕ)
    (c : Phys.PConstraint) (p1 p2 : Phys.PParticle)
    (hc : st.constraints.get? j = some c)
    (hp1 : st.particles.get? c.i1 = some p1) (hp2 : st.particles.get? c.i2 = some p2)
    (hca : c.active = true) (ha1 : p1.active = true) (ha2 : p2.active = true)
    (hpos : (0 : ℝ) < (p2.position - p1.position).length)
    (hde : (p2.position - p1.position).length >
      c.restLength * (tt * min p1.cutFactor p2.cutFactor)) :
    Phys.cActiveAt (Phys.satisfyConstraintAt tt st j) j = false := by
  unfold Phys.satisfyConstraintAt
  split
  · rename_i hcn
    rw [hc] at hcn
    exact absurd hcn (by simp)
  · rename_i c' hc'
    rw [hc] at hc'
    injection hc' with hcc
    subst hcc
    split
    · rename_i p1' p2' hp1' hp2'
      rw [hp1] at hp1'
      injection hp1' with e1
      subst e1
      rw [hp2] at hp2'
      injection hp2' with e2
      subst e2
      rw [if_pos ⟨hca, ha1, ha2⟩]
      dsimp only
      rw [if_pos hpos, if_pos hde]
      rw [cActiveAt_withConstraints]
      rw [list_get?_set_self _ j _ (list_get?_some_lt _ j c hc)]
      rfl
    · rename_i hcatch
      exact absurd hp2 (by intro hh; exact hcatch p1 p2 hp1 hh)

/-- Helper: the tear branch of satisfyConstraints fires a fortiori whenever
the distance exceeds the undamaged threshold restLength * tearThreshold,
provided the cutFactors do not exceed 1. -/
theorem satisfyConstraintAt_tear (tt : ℝ) (st : Phys.PState) (j : ℕ)
    (c : Phys.PConstraint) (p1 p2 : Phys.PParticle)
    (hc : st.constraints.get? j = some c)
    (hp1 : st.particles.get? c.i1 = some p1) (hp2 : st.particles.get? c.i2 = some p2)
    (hca : c.active = true) (ha1 : p1.active = true) (ha2 : p2.active = true)
    (hr : 0 ≤ c.restLength) (ht : 0 ≤ tt)
    (hf : min p1.cutFactor p2.cutFactor ≤ 1)
    (hd : (p2.position - p1.position).length > c.restLength * tt) :
    Phys.cActiveAt (Phys.satisfyConstraintAt tt st j) j = false := by
  have hrt : 0 ≤ c.restLength * tt := mul_nonneg hr ht
  have hde : (p2.position - p1.position).length >
      c.restLength * (tt * min p1.cutFactor p2.cutFactor) := by
    have : c.restLength * (tt * min p1.cutFactor p2.cutFactor) ≤ c.restLength * tt := by
      rw [← mul_assoc]
      calc c.restLength * tt * min p1.cutFactor p2.cutFactor
          ≤ c.restLength * tt * 1 := by
            exact mul_le_mul_of_nonneg_left hf hrt
        _ = c.restLength * tt := by ring
    linarith
  have hpos : (0 : ℝ) < (p2.position - p1.position).length := lt_of_le_of_lt hrt hd
  exact satisfyConstraintAt_tear_eff tt st j c p1 p2 hc hp1 hp2 hca ha1 ha2 hpos hde

/-- Helper: the planar-aligned distance between x-axis points 2 apart. -/
theorem dist_two_eval : Vec3.distanceTo (⟨2, 0, 0⟩ : Vec3) ⟨0, 0, 0⟩ = 2 := by
  rw [Vec3.distanceTo, Vec3.length, Vec3.lengthSq]
  simp only [Vec3.sub_x, Vec3.sub_y, Vec3.sub_z, Vec3.mk_x, Vec3.mk_y, Vec3.mk_z]
  norm_num
  exact sqrt_eval (by norm_num) (by norm_num)

/-- Counterexample for C2: in ClothPhysics.satisfyConstraints the tearing
threshold is scaled by the endpoint damage: in tornState the constraint has
restLength 1, the global tearThreshold is 2.8, the endpoint distance is 2
(which never exceeds restLength * tearThreshold = 2.8), one endpoint has
cutFactor 0.5 — and the single constraint visit still deactivates the
constraint, so over-stretch past restLength * tearFactor is not the sole
stretch-induced tearing trigger. -/
theorem claim_c2_tearing_counterexample :
    Phys.cActiveAt tornState 0 = true ∧
    Vec3.distanceTo (⟨2, 0, 0⟩ : Vec3) ⟨0, 0, 0⟩ = 2 ∧
    (2 : ℝ) ≤ 1 * 2.8 ∧
    Phys.cActiveAt (Phys.satisfyConstraintAt 2.8 tornState 0) 0 = false := by
  have hlen : ((⟨2, 0, 0⟩ : Vec3) - ⟨0, 0, 0⟩).length = 2 := dist_two_eval
  refine ⟨rfl, dist_two_eval, by norm_num, ?_⟩
  apply satisfyConstraintAt_tear_eff 2.8 tornState 0
      { i1 := 0, i2 := 1, restLength := 1, stiffness := 0.85, baseStiffness := 0.85,
        active := true }
      (mkP ⟨0, 0, 0⟩ ⟨0, 0, 0⟩ 0 true 0.5) (mkP ⟨2, 0, 0⟩ ⟨2, 0, 0⟩ 0 true 1)
      rfl rfl rfl rfl rfl rfl
  · show (0 : ℝ) < ((⟨2, 0, 0⟩ : Vec3) - ⟨0, 0, 0⟩).length
    rw [hlen]
    norm_num
  · show ((⟨2, 0, 0⟩ : Vec3) - ⟨0, 0, 0⟩).length > 1 * (2.8 * min (0.5 : ℝ) 1)
    rw [hlen]
    rw [min_eq_left (by norm_num : (0.5 : ℝ) ≤ 1)]
    norm_num

/-- Claim C2 (amended): tearing in Cloth.step marks a constraint broken
exactly when the pre-satisfy endpoint distance exceeds
restDistance * tearFactor, a broken constraint is skipped by both the step
loop and satisfy, the broken flag is never cleared by stepping, and it flips
only through this over-stretch check; in ClothPhysics.satisfyConstraints the
same check uses the damage-scaled threshold
restLength * (tearThreshold * min cutFactor) — so with undamaged endpoints
(cutFactor at most 1) any distance beyond restLength * tearThreshold tears,
but a damaged constraint can tear below restLength * tearThreshold — a
deactivated constraint is skipped and an active flag flips to false only
through that check. -/
theorem claim_c2_tearing_amended :
    (∀ (tf : ℝ) (st : ClothJS.ClothState) (j : ℕ) (c : ClothJS.Constraint)
        (p1 p2 : ClothJS.Particle),
      st.constraints.get? j = some c → c.broken = false →
      st.particles.get? c.i1 = some p1 → st.particles.get? c.i2 = some p2 →
      p2.position.distanceTo p1.position > c.restDistance * tf →
      ClothJS.stepConstraintAt tf st j =
        { st with constraints := st.constraints.set j { c with broken := true } }) ∧
    (∀ (tf : ℝ) (st : ClothJS.ClothState) (j : ℕ) (c : ClothJS.Constraint),
      st.constraints.get? j = some c → c.broken = true →
      ClothJS.stepConstraintAt tf st j = st) ∧
    (∀ (ps : List ClothJS.Particle) (c : ClothJS.Constraint),
      c.broken = true → ClothJS.satisfy ps c = ps) ∧
    (∀ (cl : ClothJS.ClothState) (dt : ℝ) (j : ℕ),
      ClothJS.brokenAt cl j = true → ClothJS.brokenAt (ClothJS.step cl dt) j = true) ∧
    (∀ (tf : ℝ) (st : ClothJS.ClothState) (j j' : ℕ),
      ClothJS.brokenAt st j = false →
      ClothJS.brokenAt (ClothJS.stepConstraintAt tf st j') j = true →
      j' = j ∧ ∃ (c : ClothJS.Constraint) (p1 p2 : ClothJS.Particle),
        st.constraints.get? j = some c ∧ c.broken = false ∧
        st.particles.get? c.i1 = some p1 ∧ st.particles.get? c.i2 = some p2 ∧
        p2.position.distanceTo p1.position > c.restDistance * tf) ∧
    (∀ (tt : ℝ) (st : Phys.PState) (j : ℕ) (c : Phys.PConstraint),
      st.constraints.get? j = some c → c.active = false →
      Phys.satisfyConstraintAt tt st j = st) ∧
    (∀ (tt : ℝ) (st : Phys.PState) (j j' : ℕ),
      Phys.cActiveAt st j = true →
      Phys.cActiveAt (Phys.satisfyConstraintAt tt st j') j = false →
      j' = j ∧ ∃ (c : Phys.PConstraint) (p1 p2 : Phys.PParticle),
        st.constraints.get? j = some c ∧ c.active = true ∧
        p1.active = true ∧ p2.active = true ∧
        st.particles.get? c.i1 = some p1 ∧ st.particles.get? c.i2 = some p2 ∧
        (p2.position - p1.position).length >
          c.restLength * (tt * min p1.cutFactor p2.cutFactor)) ∧
    (∀ (tt : ℝ) (st : Phys.PState) (j : ℕ) (c : Phys.PConstraint)
        (p1 p2 : Phys.PParticle),
      st.constraints.get? j = some c →
      st.particles.get? c.i1 = some p1 → st.particles.get? c.i2 = some p2 →
      c.active = true → p1.active = true → p2.active = true →
      0 ≤ c.restLength → 0 ≤ tt → min p1.cutFactor p2.cutFactor ≤ 1 →
      (p2.position - p1.position).length > c.restLength * tt →
      Phys.cActiveAt (Phys.satisfyConstraintAt tt st j) j = false) :=
  ⟨fun tf st j c p1 p2 hc hb hp1 hp2 hd =>
      stepConstraintAt_tear tf st j c p1 p2 hc hb hp1 hp2 hd,
   fun tf st j c hc hb => stepConstraintAt_of_broken tf st j c hc hb,
   fun ps c hb => satisfy_of_broken ps c hb,
   fun cl dt j h => step_broken_mono cl dt j h,
   fun tf st j j' h0 h1 => stepConstraintAt_tear_only tf st j j' h0 h1,
   fun tt st j c hc h => satisfyConstraintAt_of_inactive tt st j c hc h,
   fun tt st j j' h0 h1 => satisfyConstraintAt_tear_only tt st j j' h0 h1,
   fun tt st j c p1 p2 hc hp1 hp2 hca ha1 ha2 hr ht hf hd =>
      satisfyConstraintAt_tear tt st j c p1 p2 hc hp1 hp2 hca ha1 ha2 hr ht hf hd⟩

/-- Witness for C2 (amended): in pairState (rest length 1, tear factor 1.75,
endpoints 2 apart) the single constraint visit marks the constraint broken
without moving the particles. -/
theorem claim_c2_tearing_amended_witness :
    ClothJS.stepConstraintAt 1.75 pairState 0 =
      { pairState with
        constraints :=
          pairState.constraints.set 0
            { i1 := 0, i2 := 1, restDistance := 1, stiffness := 1, broken := true } } := by
  apply claim_c2_tearing_amended.1 1.75 pairState 0
      { i1 := 0, i2 := 1, restDistance := 1, stiffness := 1, broken := false }
      (mkQ ⟨0, 0, 0⟩ false) (mkQ ⟨2, 0, 0⟩ false) rfl rfl rfl rfl
  show Vec3.distanceTo (⟨2, 0, 0⟩ : Vec3) ⟨0, 0, 0⟩ > 1 * 1.75
  rw [dist_two_eval]
  norm_num

/-- Counterexample for C6: Cloth.step applies its deltaTime argument with
no clamping at all: on the one-particle state clothFree, step with dt = 1
moves the particle by gravity * 1^2 = -9.81 in y, while step with the
claimed safe maximum 0.02 moves it by -9.81 * 0.0004 — so a too-large dt
propagates un-clamped into the dt-squared integration term. -/
theorem claim_c6_timestep_counterexample :
    ((ClothJS.step clothFree 1).particles.get? 0).map (fun p => p.position.y) =
      some (-9.81) ∧
    ((ClothJS.step clothFree 0.02).particles.get? 0).map (fun p => p.position.y) =
      some (-9.81 * (0.02 * 0.02)) ∧
    (-9.81 : ℝ) ≠ -9.81 * (0.02 * 0.02) := by
  refine ⟨?_, ?_, by norm_num⟩
  · norm_num [ClothJS.step, clothFree, mkQ, ClothJS.Particle.addForce,
      ClothJS.Particle.integrate, ClothJS.stepRelax]
  · norm_num [ClothJS.step, clothFree, mkQ, ClothJS.Particle.addForce,
      ClothJS.Particle.integrate, ClothJS.stepRelax]

/-- Claim C6 (amended): only ClothPhysics.update clamps its timestep, and
only from above: the dt used by its body is min(deltaTime, 0.02), and any
deltaTime at most 0.02 — including zero and negative values — reaches the
body unmodified; Cloth.step applies its deltaTime without any clamping (see
the counterexample). -/
theorem claim_c6_timestep_amended :
    (∀ (st : Phys.PState) (pivots : List Vec3) (dt : ℝ) (rand : ℕ → ℝ),
      Phys.update st pivots dt rand = Phys.updateCore st pivots (min dt 0.02) rand) ∧
    (∀ (st : Phys.PState) (pivots : List Vec3) (dt : ℝ) (rand : ℕ → ℝ),
      dt ≤ 0.02 → Phys.update st pivots dt rand = Phys.updateCore st pivots dt rand) := by
  constructor
  · intro st pivots dt rand
    unfold Phys.update
    by_cases h : dt > 0.02
    · rw [if_pos h, min_eq_right (le_of_lt h)]
    · rw [if_neg h, min_eq_left (le_of_not_lt h)]
  · intro st pivots dt rand h
    unfold Phys.update
    rw [if_neg (not_lt_of_le h)]

/-- Witness for C6 (amended): a negative timestep of -1 reaches the update
body un-clamped. -/
theorem claim_c6_timestep_amended_witness :
    Phys.update emptyPState [] (-1) (fun _ => 0) =
      Phys.updateCore emptyPState [] (-1) (fun _ => 0) :=
  claim_c6_timestep_amended.2 emptyPState [] (-1) (fun _ => 0) (by norm_num)

/-- Helper: pushing a point away from the cut center along the normalized
direction (the displacement of cutOrganic's shell branch, with a
non-negative magnitude) never decreases the planar distance to the center. -/
theorem planarDist_displace (center v : Vec3) (t : ℝ) (ht : 0 ≤ t) :
    Phys.planarDist center v ≤
      Phys.planarDist center (v + t • (v - center).normalize) := by
  by_cases hwl : (v - center).length = 0
  · have hw0 : v - center = 0 := Vec3.eq_zero_of_length_eq_zero hwl
    rw [Vec3.normalize, if_pos hwl, hw0]
    simp
  · have hl : 0 < (v - center).length :=
      lt_of_le_of_ne (Vec3.length_nonneg _) (Ne.symm hwl)
    rw [Vec3.normalize, if_neg hwl]
    have hk0 : (0 : ℝ) < 1 + t / (v - center).length := by positivity
    have hk1 : (1 : ℝ) ≤ 1 + t / (v - center).length := by
      have : 0 ≤ t / (v - center).length := div_nonneg ht hl.le
      linarith
    have hx : (v + t • ((1 / (v - center).length) • (v - center))).x - center.x =
        (1 + t / (v - center).length) * (v.x - center.x) := by
      simp
      ring
    have hz : (v + t • ((1 / (v - center).length) • (v - center))).z - center.z =
        (1 + t / (v - center).length) * (v.z - center.z) := by
      simp
      ring
    unfold Phys.planarDist
    rw [hx, hz]
    have hsq : (1 + t / (v - center).length) * (v.x - center.x) *
          ((1 + t / (v - center).length) * (v.x - center.x)) +
        (1 + t / (v - center).length) * (v.z - center.z) *
          ((1 + t / (v - center).length) * (v.z - center.z)) =
        (1 + t / (v - center).length) ^ 2 *
          ((v.x - center.x) * (v.x - center.x) + (v.z - center.z) * (v.z - center.z)) := by
      ring
    rw [hsq, Real.sqrt_mul (sq_nonneg _), Real.sqrt_sq hk0.le]
    have hs := Real.sqrt_nonneg
      ((v.x - center.x) * (v.x - center.x) + (v.z - center.z) * (v.z - center.z))
    nlinarith

/-- Helper: the core branch of cutOrganic's particle update. -/
theorem cutOrganic_update_core (center : Vec3) (radius r1 r2 : ℝ) (p : Phys.PParticle)
    (h15 : Phys.planarDist center p.position < radius * 1.5)
    (hr : Phys.planarDist center p.position < radius) :
    Phys.cutOrganicParticleUpdate center radius r1 r2 p = { p with active := false } := by
  unfold Phys.cutOrganicParticleUpdate
  rw [if_pos h15, if_pos hr]

/-- Helper: the no-op branch of cutOrganic's particle update. -/
theorem cutOrganic_update_outside (center : Vec3) (radius r1 r2 : ℝ) (p : Phys.PParticle)
    (h15 : ¬(Phys.planarDist center p.position < radius * 1.5)) :
    Phys.cutOrganicParticleUpdate center radius r1 r2 p = p := by
  unfold Phys.cutOrganicParticleUpdate
  rw [if_neg h15]

/-- Helper: the shell branch of cutOrganic's particle update keeps the
active flag. -/
theorem cutOrganic_update_shell_active (center : Vec3) (radius r1 r2 : ℝ)
    (p : Phys.PParticle)
    (h15 : Phys.planarDist center p.position < radius * 1.5)
    (hr : ¬(Phys.planarDist center p.position < radius)) :
    (Phys.cutOrganicParticleUpdate center radius r1 r2 p).active = p.active := by
  unfold Phys.cutOrganicParticleUpdate
  rw [if_pos h15, if_neg hr]
  dsimp only
  by_cases hr1 : r1 > 0.5
  · rw [if_pos hr1]
  · rw [if_neg hr1]

/-- Helper: the shell branch of cutOrganic's particle update, for a
non-negative displacement draw, never moves the particle closer to the
center. -/
theorem cutOrganic_update_shell_dist (center : Vec3) (radius r1 r2 : ℝ)
    (p : Phys.PParticle) (hr2 : 0 ≤ r2)
    (h15 : Phys.planarDist center p.position < radius * 1.5)
    (hr : ¬(Phys.planarDist center p.position < radius)) :
    Phys.planarDist center p.position ≤
      Phys.planarDist center
        (Phys.cutOrganicParticleUpdate center radius r1 r2 p).position := by
  unfold Phys.cutOrganicParticleUpdate
  rw [if_pos h15, if_neg hr]
  dsimp only
  by_cases hr1 : r1 > 0.5
  · rw [if_pos hr1]
    exact planarDist_displace center p.position (r2 * 0.1) (by positivity)
  · rw [if_neg hr1]

/-- Helper: a second cutOrganic particle update (with fresh random draws)
leaves the active flag where the first one put it. -/
theorem cutOrganic_active_stable (center : Vec3) (radius r1 r2 r1' r2' : ℝ)
    (hr2 : 0 ≤ r2) (p : Phys.PParticle) :
    (Phys.cutOrganicParticleUpdate center radius r1' r2'
        (Phys.cutOrganicParticleUpdate center radius r1 r2 p)).active =
      (Phys.cutOrganicParticleUpdate center radius r1 r2 p).active := by
  by_cases h15 : Phys.planarDist center p.position < radius * 1.5
  · by_cases hr : Phys.planarDist center p.position < radius
    · rw [cutOrganic_update_core center radius r1 r2 p h15 hr]
      have h15' : Phys.planarDist center ({ p with active := false } :
          Phys.PParticle).position < radius * 1.5 := h15
      have hr' : Phys.planarDist center ({ p with active := false } :
          Phys.PParticle).position < radius := hr
      rw [cutOrganic_update_core center radius r1' r2' _ h15' hr']
    · have hge := cutOrganic_update_shell_dist center radius r1 r2 p hr2 h15 hr
      have hrle : radius ≤ Phys.planarDist center p.position := le_of_not_lt hr
      have hr' : ¬(Phys.planarDist center
          (Phys.cutOrganicParticleUpdate center radius r1 r2 p).position < radius) :=
        not_lt_of_le (le_trans hrle hge)
      by_cases h15' : Phys.planarDist center
          (Phys.cutOrganicParticleUpdate center radius r1 r2 p).position < radius * 1.5
      · exact cutOrganic_update_shell_active center radius r1' r2' _ h15' hr'
      · rw [cutOrganic_update_outside center radius r1' r2' _ h15']
  · rw [cutOrganic_update_outside center radius r1 r2 p h15]
    by_cases h15x : Phys.planarDist center p.position < radius * 1.5
    · exact absurd h15x h15
    · rw [cutOrganic_update_outside center radius r1' r2' p h15]

/-- Helper: repeating the cutOrganic particle pass with identical center and
radius (and fresh random draws) leaves the active flags of the first pass
unchanged, provided the first pass's random stream is non-negative (as
Math.random() is). -/
theorem cutOrganicGo_active_idem (center : Vec3) (radius : ℝ) (rand rand' : ℕ → ℝ)
    (h : ∀ j, 0 ≤ rand j) :
    ∀ (ps : List Phys.PParticle) (i : ℕ),
      (Phys.cutOrganicGo center radius rand' i
          (Phys.cutOrganicGo center radius rand i ps)).map (·.active) =
        (Phys.cutOrganicGo center radius rand i ps).map (·.active) := by
  intro ps
  induction ps with
  | nil => intro i; rfl
  | cons p rest ih =>
      intro i
      simp only [Phys.cutOrganicGo, List.map]
      rw [cutOrganic_active_stable center radius (rand (2 * i)) (rand (2 * i + 1))
            (rand' (2 * i)) (rand' (2 * i + 1)) (h (2 * i + 1)) p]
      rw [ih (i + 1)]

/-- Helper: the per-particle capsule cut never raises a cutFactor. -/
theorem cutAlong_cutFactor_mono (start e : Vec3) (radius : ℝ) (p : Phys.PParticle) :
    (Phys.cutAlongParticleUpdate start e radius p).cutFactor ≤ p.cutFactor := by
  unfold Phys.cutAlongParticleUpdate
  by_cases ha : p.active = true
  · rw [if_pos ha]
    dsimp only
    by_cases h1 : Phys.distPointToSeg start e p.position ≤ radius
    · rw [if_pos h1]
    · rw [if_neg h1]
      by_cases h2 : Phys.distPointToSeg start e p.position ≤ radius * 1.6
      · rw [if_pos h2]
        exact min_le_left _ _
      · rw [if_neg h2]
  · rw [if_neg ha]

/-- Helper: the planar distance from the origin to x = 0.5 evaluates to 0.5. -/
theorem planarDist_half_eval :
    Phys.planarDist ⟨0, 0, 0⟩ (⟨0.5, 0, 0⟩ : Vec3) = 0.5 := by
  unfold Phys.planarDist
  simp only [Vec3.mk_x, Vec3.mk_z]
  rw [show ((0.5 : ℝ) - 0) * (0.5 - 0) + (0 - 0) * (0 - 0) = 0.25 by norm_num]
  exact sqrt_eval (by norm_num) (by norm_num)

/-- Counterexample for C5: cutOrganic ASSIGNS the shell cutFactor instead of
taking the minimum with the existing value: the particle damagedP already
carries cutFactor 0.2, sits at planar distance 0.5 from the origin, and a
point cut of radius 0.4 raises its cutFactor to 0.5 — so a cut operation can
increase a particle's cutFactor (damage heals), refuting the claim. -/
theorem claim_c5_cut_monotonicity_counterexample :
    damagedP.cutFactor = 0.2 ∧
    (Phys.cutOrganicParticleUpdate ⟨0, 0, 0⟩ 0.4 0 0 damagedP).cutFactor = 0.5 ∧
    ¬((Phys.cutOrganicParticleUpdate ⟨0, 0, 0⟩ 0.4 0 0 damagedP).cutFactor ≤
        damagedP.cutFactor) := by
  have hpd : Phys.planarDist ⟨0, 0, 0⟩ damagedP.position = 0.5 := planarDist_half_eval
  have hcut : (Phys.cutOrganicParticleUpdate ⟨0, 0, 0⟩ 0.4 0 0 damagedP).cutFactor = 0.5 := by
    unfold Phys.cutOrganicParticleUpdate
    rw [hpd]
    rw [if_pos (by norm_num : (0.5 : ℝ) < 0.4 * 1.5)]
    rw [if_neg (by norm_num : ¬((0.5 : ℝ) < 0.4))]
    dsimp only
    rw [if_neg (by norm_num : ¬((0 : ℝ) > 0.5))]
    show max 0.2 (1 - (1 - (0.5 - 0.4) / (0.4 * 0.5))) = 0.5
    rw [show (1 : ℝ) - (1 - (0.5 - 0.4) / (0.4 * 0.5)) = 0.5 by norm_num]
    rw [max_eq_right (by norm_num : (0.2 : ℝ) ≤ 0.5)]
  refine ⟨rfl, hcut, ?_⟩
  rw [hcut]
  show ¬((0.5 : ℝ) ≤ 0.2)
  norm_num

/-- Claim C5 (amended): calling the point/radius cut twice with identical
center and radius produces the same active flags as calling it once
(deactivation is idempotent and the shell displacement only pushes outward),
and the segment cut combines falloff damage by minimum with the existing
factor, so it never raises a cutFactor; the point/radius cut, however,
assigns the shell falloff value outright and can raise a previously lowered
cutFactor (see the counterexample). -/
theorem claim_c5_cut_idempotence_amended :
    (∀ (center : Vec3) (radius : ℝ) (rand rand' : ℕ → ℝ) (ps : List Phys.PParticle),
      (∀ j, 0 ≤ rand j) →
      (Phys.cutOrganicParticles center radius rand'
          (Phys.cutOrganicParticles center radius rand ps)).map (·.active) =
        (Phys.cutOrganicParticles center radius rand ps).map (·.active)) ∧
    (∀ (start e : Vec3) (radius : ℝ) (p : Phys.PParticle),
      (Phys.cutAlongParticleUpdate start e radius p).cutFactor ≤ p.cutFactor) := by
  constructor
  · intro center radius rand rand' ps h
    exact cutOrganicGo_active_idem center radius rand rand' h ps 0
  · intro start e radius p
    exact cutAlong_cutFactor_mono start e radius p

/-- Witness for C5 (amended), at a singleton particle list and the constant
zero random stream. -/
theorem claim_c5_cut_idempotence_amended_witness :
    (Phys.cutOrganicParticles ⟨0, 0, 0⟩ 0.4 (fun _ => 1)
        (Phys.cutOrganicParticles ⟨0, 0, 0⟩ 0.4 (fun _ => 0) [damagedP])).map (·.active) =
      (Phys.cutOrganicParticles ⟨0, 0, 0⟩ 0.4 (fun _ => 0) [damagedP]).map (·.active) :=
  claim_c5_cut_idempotence_amended.1 ⟨0, 0, 0⟩ 0.4 (fun _ => 0) (fun _ => 1) [damagedP]
    (fun _ => le_refl 0)

/-- Helper: the tracked minimum of the nearest-particle scan only shrinks. -/
theorem findAux_le_init (pivot : Vec3) :
    ∀ (ps : List Phys.PParticle) (i j0 : ℕ) (d0 : ℝ) (j : ℕ) (d : ℝ),
      Phys.findNearestTopAux pivot ps i (some (j0, d0)) = some (j, d) → d ≤ d0 := by
  intro ps
  induction ps with
  | nil =>
      intro i j0 d0 j d h
      unfold Phys.findNearestTopAux at h
      simp at h
      rw [h.2]
  | cons p rest ih =>
      intro i j0 d0 j d h
      unfold Phys.findNearestTopAux at h
      dsimp only at h
      by_cases hy : p.y = 0
      · rw [if_pos hy] at h
        by_cases hlt : Phys.distToPivot pivot p < d0
        · rw [if_pos hlt] at h
          exact le_trans (ih _ _ _ _ _ h) hlt.le
        · rw [if_neg hlt] at h
          exact ih _ _ _ _ _ h
      · rw [if_neg hy] at h
        exact ih _ _ _ _ _ h

/-- Helper: the distance returned by the nearest-particle scan is a lower
bound on the pivot distance of every top-row particle scanned. -/
theorem findAux_le (pivot : Vec3) :
    ∀ (ps : List Phys.PParticle) (i : ℕ) (best : Option (ℕ × ℝ)) (j : ℕ) (d : ℝ),
      Phys.findNearestTopAux pivot ps i best = some (j, d) →
      ∀ q ∈ ps, q.y = 0 → d ≤ Phys.distToPivot pivot q := by
  intro ps
  induction ps with
  | nil => intro i best j d h q hq; simp at hq
  | cons p rest ih =>
      intro i best j d h q hq hqy
      unfold Phys.findNearestTopAux at h
      dsimp only at h
      rcases List.mem_cons.mp hq with hqp | hqr
      · subst hqp
        rw [if_pos hqy] at h
        cases best with
        | none => exact findAux_le_init pivot rest _ _ _ _ _ h
        | some b =>
            obtain ⟨j0, d0⟩ := b
            dsimp only at h
            by_cases hlt : Phys.distToPivot pivot q < d0
            · rw [if_pos hlt] at h
              exact findAux_le_init pivot rest _ _ _ _ _ h
            · rw [if_neg hlt] at h
              exact le_trans (findAux_le_init pivot rest _ _ _ _ _ h) (le_of_not_lt hlt)
      · exact ih _ _ _ _ h q hqr hqy

/-- Helper: the result of the nearest-particle scan is either the incoming
best candidate or a top-row particle of the scanned list, with its index and
its pivot distance. -/
theorem findAux_from (pivot : Vec3) :
    ∀ (ps : List Phys.PParticle) (i : ℕ) (best : Option (ℕ × ℝ)) (j : ℕ) (d : ℝ),
      Phys.findNearestTopAux pivot ps i best = some (j, d) →
      best = some (j, d) ∨
        ∃ (k : ℕ) (p : Phys.PParticle), ps.get? k = some p ∧ j = i + k ∧ p.y = 0 ∧
          d = Phys.distToPivot pivot p := by
  intro ps
  induction ps with
  | nil =>
      intro i best j d h
      unfold Phys.findNearestTopAux at h
      exact Or.inl h
  | cons p rest ih =>
      intro i best j d h
      unfold Phys.findNearestTopAux at h
      dsimp only at h
      by_cases hy : p.y = 0
      · rw [if_pos hy] at h
        cases best with
        | none =>
            rcases ih _ _ _ _ h with hleft | hright
            · simp at hleft
              refine Or.inr ⟨0, p, rfl, ?_, hy, hleft.2.symm⟩
              omega
            · obtain ⟨k, p', hget, hj, hy', hd'⟩ := hright
              refine Or.inr ⟨k + 1, p', by simpa using hget, by omega, hy', hd'⟩
        | some b =>
            obtain ⟨j0, d0⟩ := b
            dsimp only at h
            by_cases hlt : Phys.distToPivot pivot p < d0
            · rw [if_pos hlt] at h
              rcases ih _ _ _ _ h with hleft | hright
              · simp at hleft
                refine Or.inr ⟨0, p, rfl, ?_, hy, hleft.2.symm⟩
                omega
              · obtain ⟨k, p', hget, hj, hy', hd'⟩ := hright
                refine Or.inr ⟨k + 1, p', by simpa using hget, by omega, hy', hd'⟩
            · rw [if_neg hlt] at h
              rcases ih _ _ _ _ h with hleft | hright
              · exact Or.inl hleft
              · obtain ⟨k, p', hget, hj, hy', hd'⟩ := hright
                refine Or.inr ⟨k + 1, p', by simpa using hget, by omega, hy', hd'⟩
      · rw [if_neg hy] at h
        rcases ih _ _ _ _ h with hleft | hright
        · exact Or.inl hleft
        · obtain ⟨k, p', hget, hj, hy', hd'⟩ := hright
          refine Or.inr ⟨k + 1, p', by simpa using hget, by omega, hy', hd'⟩

/-- Helper: specification of findNearestTop — the chosen index holds a
top-row particle at exactly the returned distance, and that distance is
minimal among all top-row particles. -/
theorem findNearestTop_spec (pivot : Vec3) (ps : List Phys.PParticle) (j : ℕ) (d : ℝ)
    (h : Phys.findNearestTop pivot ps = some (j, d)) :
    (∃ p, ps.get? j = some p ∧ p.y = 0 ∧ d = Phys.distToPivot pivot p) ∧
    ∀ q ∈ ps, q.y = 0 → d ≤ Phys.distToPivot pivot q := by
  constructor
  · rcases findAux_from pivot ps 0 none j d h with hleft | hright
    · exact absurd hleft (by simp)
    · obtain ⟨k, p, hget, hj, hy, hd⟩ := hright
      refine ⟨p, ?_, hy, hd⟩
      rw [hj]
      simpa using hget
  · exact findAux_le pivot ps 0 none j d h

/-- Helper: applyPivot with no top-row candidate is a no-op. -/
theorem applyPivot_none (ps : List Phys.PParticle) (pivot : Vec3)
    (h : Phys.findNearestTop pivot ps = none) : Phys.applyPivot ps pivot = ps := by
  unfold Phys.applyPivot
  rw [h]

/-- Helper: applyPivot with the nearest candidate out of snapping range is a
no-op. -/
theorem applyPivot_far (ps : List Phys.PParticle) (pivot : Vec3) (j : ℕ) (d : ℝ)
    (h : Phys.findNearestTop pivot ps = some (j, d)) (hd : ¬(d < 0.5)) :
    Phys.applyPivot ps pivot = ps := by
  unfold Phys.applyPivot
  rw [h]
  dsimp only
  rw [if_neg hd]

/-- Helper: applyPivot within snapping range pins exactly the chosen
particle and snaps both its positions to the pivot. -/
theorem applyPivot_pin (ps : List Phys.PParticle) (pivot : Vec3) (j : ℕ) (d : ℝ)
    (p : Phys.PParticle)
    (h : Phys.findNearestTop pivot ps = some (j, d)) (hd : d < 0.5)
    (hp : ps.get? j = some p) :
    Phys.applyPivot ps pivot =
      ps.set j { p with pinned := true, position := pivot, previousPosition := pivot } := by
  unfold Phys.applyPivot
  rw [h]
  dsimp only
  rw [if_pos hd, hp]

/-- Helper: after attachToPivots only top-row particles can be pinned. -/
theorem attachToPivots_pins_top (pivots : List Vec3) (ps : List Phys.PParticle) :
    ∀ q ∈ Phys.attachToPivots pivots ps, q.pinned = true → q.y = 0 := by
  unfold Phys.attachToPivots
  refine foldl_preserve (fun l => ∀ q ∈ l, q.pinned = true → q.y = 0) _ ?_ pivots
    (Phys.clearPins ps) ?_
  · intro l pivot hl q hq hqp
    cases hfind : Phys.findNearestTop pivot l with
    | none =>
        rw [applyPivot_none l pivot hfind] at hq
        exact hl q hq hqp
    | some b =>
        obtain ⟨j, d⟩ := b
        by_cases hd : d < 0.5
        · cases hp : l.get? j with
          | none =>
              have : Phys.applyPivot l pivot = l := by
                unfold Phys.applyPivot
                rw [hfind]
                dsimp only
                rw [if_pos hd, hp]
              rw [this] at hq
              exact hl q hq hqp
          | some p =>
              rw [applyPivot_pin l pivot j d p hfind hd hp] at hq
              rcases list_mem_set l j _ q hq with hql | hqe
              · exact hl q hql hqp
              · obtain ⟨p0, hp0, hy0, _⟩ := (findNearestTop_spec pivot l j d hfind).1
                rw [hp] at hp0
                injection hp0 with he
                rw [hqe]
                show p.y = 0
                rw [← he] at hy0
                exact hy0
        · rw [applyPivot_far l pivot j d hfind hd] at hq
          exact hl q hq hqp
  · intro q hq hqp
    unfold Phys.clearPins at hq
    rcases List.mem_map.mp hq with ⟨p, _, rfl⟩
    exact absurd hqp (by simp)

/-- Helper: the distance from the origin to itself evaluates to 0. -/
theorem dist_zero_eval : Vec3.distanceTo (⟨0, 0, 0⟩ : Vec3) ⟨0, 0, 0⟩ = 0 := by
  rw [Vec3.distanceTo, Vec3.length, Vec3.lengthSq]
  simp only [Vec3.sub_x, Vec3.sub_y, Vec3.sub_z, Vec3.mk_x, Vec3.mk_y, Vec3.mk_z]
  rw [show ((0 : ℝ) - 0) * (0 - 0) + (0 - 0) * (0 - 0) + (0 - 0) * (0 - 0) = 0 by norm_num]
  exact Real.sqrt_zero

/-- Claim C7: anchor resolution first clears every pin flag; with zero
anchors every particle ends unpinned; no interior-row particle is ever
pinned; and each anchor pins at most the single nearest top-row particle —
nothing when there is no candidate or the nearest candidate is at distance
at least 0.5, and otherwise exactly the scanned nearest top-row particle,
whose position and previousPosition are snapped to the anchor point. -/
theorem claim_c7_anchor_resolution :
    (∀ (pivots : List Vec3) (ps : List Phys.PParticle),
      Phys.attachToPivots pivots ps =
        pivots.foldl Phys.applyPivot (ps.map fun p => { p with pinned := false })) ∧
    (∀ (ps : List Phys.PParticle), ∀ q ∈ Phys.attachToPivots [] ps, q.pinned = false) ∧
    (∀ (pivots : List Vec3) (ps : List Phys.PParticle),
      ∀ q ∈ Phys.attachToPivots pivots ps, q.pinned = true → q.y = 0) ∧
    (∀ (ps : List Phys.PParticle) (pivot : Vec3),
      Phys.findNearestTop pivot ps = none → Phys.applyPivot ps pivot = ps) ∧
    (∀ (ps : List Phys.PParticle) (pivot : Vec3) (j : ℕ) (d : ℝ),
      Phys.findNearestTop pivot ps = some (j, d) → ¬(d < 0.5) →
      Phys.applyPivot ps pivot = ps) ∧
    (∀ (ps : List Phys.PParticle) (pivot : Vec3) (j : ℕ) (d : ℝ) (p : Phys.PParticle),
      Phys.findNearestTop pivot ps = some (j, d) → d < 0.5 → ps.get? j = some p →
      Phys.applyPivot ps pivot =
          ps.set j { p with pinned := true, position := pivot, previousPosition := pivot } ∧
        p.y = 0 ∧ d = Phys.distToPivot pivot p ∧
        ∀ q ∈ ps, q.y = 0 → d ≤ Phys.distToPivot pivot q) := by
  refine ⟨?_, ?_, ?_, ?_, ?_, ?_⟩
  · intro pivots ps
    rfl
  · intro ps q hq
    unfold Phys.attachToPivots at hq
    simp only [List.foldl_nil] at hq
    unfold Phys.clearPins at hq
    rcases List.mem_map.mp hq with ⟨p, _, rfl⟩
    rfl
  · intro pivots ps q hq hqp
    exact attachToPivots_pins_top pivots ps q hq hqp
  · intro ps pivot h
    exact applyPivot_none ps pivot h
  · intro ps pivot j d h hd
    exact applyPivot_far ps pivot j d h hd
  · intro ps pivot j d p h hd hp
    obtain ⟨⟨p0, hp0, hy0, hd0⟩, hmin⟩ := findNearestTop_spec pivot ps j d h
    rw [hp] at hp0
    injection hp0 with he
    subst he
    exact ⟨applyPivot_pin ps pivot j d p h hd hp, hy0, hd0, hmin⟩

/-- Witness for C7: a single top-row particle whose rest position coincides
with the anchor is pinned and snapped by applyPivot. -/
theorem claim_c7_anchor_resolution_witness :
    Phys.applyPivot [topP] ⟨0, 0, 0⟩ =
      [topP].set 0 { topP with pinned := true, position := ⟨0, 0, 0⟩,
                               previousPosition := ⟨0, 0, 0⟩ } :=
  (claim_c7_anchor_resolution.2.2.2.2.2 [topP] ⟨0, 0, 0⟩ 0
      (Vec3.distanceTo (⟨0, 0, 0⟩ : Vec3) ⟨0, 0, 0⟩) topP rfl
      (by rw [dist_zero_eval]; norm_num) rfl).1

/-- Helper: the nearest-particle scan reads only each particle's
originalPosition and grid row y — never its current position, velocity,
pin state, cutFactor or active flag. -/
theorem findAux_skeleton (pivot : Vec3) :
    ∀ (ps ps' : List Phys.PParticle),
      List.Forall₂
        (fun p q => p.originalPosition = q.originalPosition ∧ p.y = q.y) ps ps' →
      ∀ (i : ℕ) (best : Option (ℕ × ℝ)),
        Phys.findNearestTopAux pivot ps i best =
          Phys.findNearestTopAux pivot ps' i best := by
  intro ps ps' hrel
  induction hrel with
  | nil => intro i best; rfl
  | @cons p q psr psr' hpq hrest ih =>
      intro i best
      obtain ⟨ho, hy⟩ := hpq
      unfold Phys.findNearestTopAux
      dsimp only
      rw [show Phys.distToPivot pivot p = Phys.distToPivot pivot q by
        unfold Phys.distToPivot; rw [ho]]
      rw [hy]
      exact ih _ _

/-- Claim C10 (implicit): anchor resolution selects the nearest top-row
particle by the distance from the anchor to the particle's original
rest-grid position — two particle lists agreeing on originalPosition and
grid row produce the same selection whatever their current positions or
active flags — and it does not exclude inactive particles: a deactivated
top-row particle that is the in-range nearest is still pinned and snapped
to the anchor point. -/
theorem claim_c10_anchor_rest_position :
    (∀ (pivot : Vec3) (ps ps' : List Phys.PParticle),
      List.Forall₂
        (fun p q => p.originalPosition = q.originalPosition ∧ p.y = q.y) ps ps' →
      Phys.findNearestTop pivot ps = Phys.findNearestTop pivot ps') ∧
    (∀ (ps : List Phys.PParticle) (pivot : Vec3) (j : ℕ) (d : ℝ) (p : Phys.PParticle),
      Phys.findNearestTop pivot ps = some (j, d) → d < 0.5 → ps.get? j = some p →
      p.active = false →
      (Phys.applyPivot ps pivot).get? j =
        some { p with pinned := true, position := pivot, previousPosition := pivot }) := by
  constructor
  · intro pivot ps ps' hrel
    exact findAux_skeleton pivot ps ps' hrel 0 none
  · intro ps pivot j d p h hd hp _
    rw [applyPivot_pin ps pivot j d p h hd hp]
    exact list_get?_set_self ps j _ (list_get?_some_lt ps j p hp)

/-- Witness for C10: the inactive top-row particle inactiveTopP (rest
position at the anchor, current position elsewhere) is still chosen and
pinned by applyPivot. -/
theorem claim_c10_anchor_rest_position_witness :
    (Phys.applyPivot [inactiveTopP] ⟨0, 0, 0⟩).get? 0 =
      some { inactiveTopP with pinned := true, position := ⟨0, 0, 0⟩,
                               previousPosition := ⟨0, 0, 0⟩ } :=
  claim_c10_anchor_rest_position.2 [inactiveTopP] ⟨0, 0, 0⟩ 0
    (Vec3.distanceTo (⟨0, 0, 0⟩ : Vec3) ⟨0, 0, 0⟩) inactiveTopP rfl
    (by rw [dist_zero_eval]; norm_num) rfl rfl

/-- Helper: overwriting the positions of two looked-up particles does not
change the list of pin flags. -/
theorem map_pins_set_positions (ps : List ClothJS.Particle) (i1 i2 : ℕ)
    (p1 p2 : ClothJS.Particle) (a b : Vec3)
    (hp1 : ps.get? i1 = some p1) (hp2 : ps.get? i2 = some p2) :
    ((ps.set i1 { p1 with position := a }).set i2
        { p2 with position := b }).map (·.pinned) = ps.map (·.pinned) := by
  rw [list_map_set, list_map_set]
  show ((ps.map (·.pinned)).set i1 p1.pinned).set i2 p2.pinned = ps.map (·.pinned)
  rw [list_set_same _ i1 _ (by rw [list_get?_map, hp1]; rfl)]
  rw [list_set_same _ i2 _ (by rw [list_get?_map, hp2]; rfl)]

/-- Helper: satisfy moves positions only — the pin flags are untouched. -/
theorem satisfy_pins (ps : List ClothJS.Particle) (c : ClothJS.Constraint) :
    (ClothJS.satisfy ps c).map (·.pinned) = ps.map (·.pinned) := by
  unfold ClothJS.satisfy
  split
  · rfl
  · split
    · rename_i p1 p2 hp1 hp2
      dsimp only
      split_ifs <;>
        first
          | rfl
          | exact map_pins_set_positions ps c.i1 c.i2 p1 p2 _ _ hp1 hp2
    · rfl

/-- Helper: the plain satisfaction pass preserves pin flags. -/
theorem relaxPass_pins (st : ClothJS.ClothState) :
    (ClothJS.relaxPass st).particles.map (·.pinned) = st.particles.map (·.pinned) := by
  unfold ClothJS.relaxPass
  refine foldl_preserve
    (fun (ps : List ClothJS.Particle) =>
      ps.map (·.pinned) = st.particles.map (·.pinned)) _ ?_ _ _ rfl
  intro ps c hps
  by_cases hb : c.broken = true
  · rw [if_pos hb]
    exact hps
  · rw [if_neg hb]
    rw [satisfy_pins]
    exact hps

/-- Helper: the inner pre-sag column update preserves pin flags. -/
theorem preSagInner_pins (top : List ℕ) (yb ms : ℝ) (lc sc : ℕ)
    (ps : List ClothJS.Particle) (col : ℕ) :
    (ClothJS.preSagInner top yb ms lc sc ps col).map (·.pinned) =
      ps.map (·.pinned) := by
  unfold ClothJS.preSagInner
  dsimp only
  split
  · rfl
  · rename_i p hp
    split
    · rfl
    · rw [list_map_set]
      show (ps.map (·.pinned)).set (top.getD col 0) p.pinned = ps.map (·.pinned)
      rw [list_set_same _ _ _ (by rw [list_get?_map, hp]; rfl)]

/-- Helper: the per-span pre-sag update preserves pin flags. -/
theorem preSagSpan_pins (top pinnedCols : List ℕ) (dx : ℝ)
    (ps : List ClothJS.Particle) (a : ℕ) :
    (ClothJS.preSagSpan top pinnedCols dx ps a).map (·.pinned) =
      ps.map (·.pinned) := by
  unfold ClothJS.preSagSpan
  dsimp only
  split
  · rfl
  · refine foldl_preserve
      (fun (l : List ClothJS.Particle) =>
        l.map (·.pinned) = ps.map (·.pinned)) _ ?_ _ _ rfl
    intro l col hl
    rw [preSagInner_pins]
    exact hl

/-- Helper: the pre-sag shaping pass preserves pin flags. -/
theorem applyPreSag_pins (cl : ClothJS.ClothState) (rep : ℕ) :
    (ClothJS.applyPreSagOnTopRow cl rep).particles.map (·.pinned) =
      cl.particles.map (·.pinned) := by
  unfold ClothJS.applyPreSagOnTopRow
  dsimp only
  split
  · rfl
  · refine foldl_preserve
      (fun (l : List ClothJS.Particle) =>
        l.map (·.pinned) = cl.particles.map (·.pinned)) _ ?_ _ _ rfl
    intro l r hl
    refine foldl_preserve
      (fun (l2 : List ClothJS.Particle) =>
        l2.map (·.pinned) = cl.particles.map (·.pinned)) _ ?_ _ _ hl
    intro l2 a hl2
    rw [preSagSpan_pins]
    exact hl2

/-- Helper: the pre-sag shaping pass preserves the physics flag. -/
theorem applyPreSag_physics (cl : ClothJS.ClothState) (rep : ℕ) :
    (ClothJS.applyPreSagOnTopRow cl rep).physicsEnabled = cl.physicsEnabled := by
  unfold ClothJS.applyPreSagOnTopRow
  dsimp only
  split
  · rfl
  · rfl

/-- Helper: one relaxConstraints iteration preserves pin flags. -/
theorem relaxIter_pins (cl : ClothJS.ClothState) :
    (ClothJS.relaxIter cl).particles.map (·.pinned) =
      cl.particles.map (·.pinned) := by
  unfold ClothJS.relaxIter
  dsimp only
  split
  · exact relaxPass_pins cl
  · rw [applyPreSag_pins]
    exact relaxPass_pins cl

/-- Helper: Cloth.relaxConstraints preserves pin flags. -/
theorem relaxConstraints_pins (cl : ClothJS.ClothState) :
    (ClothJS.relaxConstraints cl).particles.map (·.pinned) =
      cl.particles.map (·.pinned) := by
  unfold ClothJS.relaxConstraints
  dsimp only
  have hfold : ((List.range 12).foldl (fun s _ => ClothJS.relaxIter s) cl).particles.map
      (·.pinned) = cl.particles.map (·.pinned) := by
    refine foldl_preserve
      (fun (s : ClothJS.ClothState) =>
        s.particles.map (·.pinned) = cl.particles.map (·.pinned)) _ ?_ _ _ rfl
    intro s i hs
    rw [relaxIter_pins]
    exact hs
  split
  · exact hfold
  · rw [applyPreSag_pins]
    exact hfold

/-- Claim C8: startSimulation refuses and leaves the entire simulation state
unchanged (returning false) when no top-row particle is pinned as a
constraint point; when at least one top-row particle is pinned it returns
true and enables physics. -/
theorem claim_c8_startSimulation (cl : ClothJS.ClothState) :
    ((ClothJS.topRowIndices cl.segmentsX).any (fun i => ClothJS.pinnedAt cl i) = false →
      ClothJS.startSimulation cl = (false, cl)) ∧
    ((ClothJS.topRowIndices cl.segmentsX).any (fun i => ClothJS.pinnedAt cl i) = true →
      (ClothJS.startSimulation cl).1 = true ∧
      (ClothJS.startSimulation cl).2.physicsEnabled = true) := by
  constructor
  · intro h
    unfold ClothJS.startSimulation
    dsimp only
    rw [if_neg (by rw [h]; simp)]
  · intro h
    unfold ClothJS.startSimulation
    dsimp only
    rw [if_pos (by rw [h])]
    exact ⟨rfl, rfl⟩

/-- Witness for C8: the single-particle cloth with an unpinned top row is
refused and untouched; pinning the particle makes startSimulation succeed
and enable physics. -/
theorem claim_c8_startSimulation_witness :
    ClothJS.startSimulation clothUnpinned = (false, clothUnpinned) ∧
    (ClothJS.startSimulation clothPinned).1 = true ∧
    (ClothJS.startSimulation clothPinned).2.physicsEnabled = true :=
  ⟨(claim_c8_startSimulation clothUnpinned).1 rfl,
   (claim_c8_startSimulation clothPinned).2 rfl⟩

/-- Claim C9: togglePin returns false and changes nothing when the index is
undefined, when the index is not a top-row index, or when physics has
already been started; only a pre-start call on a top-row index toggles the
pin flag, and the boolean return reports the new pin state rather than
raising an error. -/
theorem claim_c9_togglePin_noop (cl : ClothJS.ClothState) (index : ℕ) :
    (cl.particles.get? index = none → ClothJS.togglePin cl index = (false, cl)) ∧
    (∀ p, cl.particles.get? index = some p →
      index ∉ ClothJS.topRowIndices cl.segmentsX →
      ClothJS.togglePin cl index = (false, cl)) ∧
    (∀ p, cl.particles.get? index = some p →
      index ∈ ClothJS.topRowIndices cl.segmentsX → cl.physicsEnabled = true →
      ClothJS.togglePin cl index = (false, cl)) ∧
    (∀ p, cl.particles.get? index = some p →
      index ∈ ClothJS.topRowIndices cl.segmentsX → cl.physicsEnabled = false →
      (∃ p', (ClothJS.togglePin cl index).2.particles.get? index = some p' ∧
        p'.pinned = !p.pinned ∧ (ClothJS.togglePin cl index).1 = !p.pinned) ∧
      ∀ j, j ≠ index →
        ((ClothJS.togglePin cl index).2.particles.get? j).map (·.pinned) =
          (cl.particles.get? j).map (·.pinned)) := by
  refine ⟨?_, ?_, ?_, ?_⟩
  · intro h
    unfold ClothJS.togglePin
    rw [h]
  · intro p hp hmem
    unfold ClothJS.togglePin
    rw [hp]
    dsimp only
    rw [if_pos hmem]
  · intro p hp hmem hphys
    unfold ClothJS.togglePin
    rw [hp]
    dsimp only
    rw [if_neg (by simp [hmem]), if_pos hphys]
  · intro p hp hmem hphys
    have hlt : index < cl.particles.length := list_get?_some_lt _ index p hp
    unfold ClothJS.togglePin
    rw [hp]
    dsimp only
    rw [if_neg (by simp [hmem]), if_neg (by rw [hphys]; simp)]
    dsimp only
    set p' := if p.pinned then p.unpin else p.pinToCurrent with hp'
    have hp'pin : p'.pinned = !p.pinned := by
      rw [hp']
      by_cases hpin : p.pinned = true
      · rw [if_pos hpin, hpin]
        rfl
      · rw [if_neg hpin]
        have : p.pinned = false := by simpa using hpin
        rw [this]
        rfl
    set cl1 : ClothJS.ClothState := { cl with particles := cl.particles.set index p' }
      with hcl1
    have hpins := relaxConstraints_pins cl1
    have hmap : ((ClothJS.relaxConstraints cl1).particles.get? index).map (·.pinned) =
        some p'.pinned := by
      rw [← list_get?_map, hpins, hcl1]
      show ((cl.particles.set index p').map (·.pinned)).get? index = some p'.pinned
      rw [list_map_set]
      exact list_get?_set_self _ index _ (by simpa using hlt)
    obtain ⟨p'', hp'', hpin''⟩ := Option.map_eq_some'.mp hmap
    constructor
    · refine ⟨p'', hp'', by rw [hpin'', hp'pin], ?_⟩
      show (((ClothJS.relaxConstraints cl1).particles.get? index).map (·.pinned)).getD false
        = !p.pinned
      rw [hmap, hp'pin]
      rfl
    · intro j hj
      show ((ClothJS.relaxConstraints cl1).particles.get? j).map (·.pinned) =
        (cl.particles.get? j).map (·.pinned)
      rw [← list_get?_map, hpins, hcl1]
      show ((cl.particles.set index p').map (·.pinned)).get? j =
        (cl.particles.get? j).map (·.pinned)
      rw [list_map_set, list_get?_set_ne _ index j _ (fun h => hj h.symm),
        list_get?_map]

/-- Witness for C9: an out-of-range index and a non-top-row index are both
rejected with the state unchanged. -/
theorem claim_c9_togglePin_noop_witness :
    ClothJS.togglePin clothUnpinned 5 = (false, clothUnpinned) ∧
    ClothJS.togglePin clothTwo 1 = (false, clothTwo) :=
  ⟨(claim_c9_togglePin_noop clothUnpinned 5).1 rfl,
   (claim_c9_togglePin_noop clothTwo 1).2.1 (mkQ ⟨1, 4, 0⟩ false) rfl (by decide)⟩

end ClothSim
